import Mathlib

/-!
Verification development for `datool` (src/datool.py), a tool that attributes
source-code authorship to a roster of contributors from git and GitHub data.

The Python source is shallowly embedded: pure functions become Lean functions,
the external `git`/`gh` commands become explicit oracle structures whose fields
return the commands' textual output (or a stderr string on failure, mirroring
`subprocess.CalledProcessError`), and Python exceptions become `Except PyErr`.
Python dictionaries and sets keyed by `Author` objects are modelled as
association lists compared with `authEq`, because the Python class defines
`__eq__`/`__hash__` on the (name, email) pair only.
-/

namespace Datool

/-! ## Python string primitives -/

/-- Whitespace characters recognised by Python `str.strip()` / `\s` (ASCII range;
the source only ever meets ASCII whitespace in git/gh output). -/
def pyIsSpace (c : Char) : Bool :=
  c == ' ' || c == '\t' || c == '\n' || c == '\r' || c == '\x0b' || c == '\x0c'

/-- `str.strip()` on raw character data. -/
def pyStripData (l : List Char) : List Char :=
  ((l.dropWhile pyIsSpace).reverse.dropWhile pyIsSpace).reverse

/-- Python `s.strip()`. -/
def pyStrip (s : String) : String := ⟨pyStripData s.data⟩

/-- Python `s.strip("<>")`: drop leading and trailing characters drawn from the set. -/
def pyStripAngle (s : String) : String :=
  ⟨((s.data.dropWhile (fun c => c == '<' || c == '>')).reverse.dropWhile
      (fun c => c == '<' || c == '>')).reverse⟩

/-- Python `s.lower()` (ASCII; the handles and git refs involved are ASCII). -/
def pyLower (s : String) : String := ⟨s.data.map Char.toLower⟩

/-- Python `s.upper()`. -/
def pyUpper (s : String) : String := ⟨s.data.map Char.toUpper⟩

/-- Python slice `s[:n]`. -/
def strTake (s : String) (n : Nat) : String := ⟨s.data.take n⟩

/-- Whether `pre` is a prefix of `l` (Python `startswith` on character data). -/
def listHasPre : List Char → List Char → Bool
  | [], _ => true
  | _ :: _, [] => false
  | a :: as, b :: bs => a == b && listHasPre as bs

/-- Python `s.startswith(pre)`. -/
def pyStartswith (s pre : String) : Bool := listHasPre pre.data s.data

/-- Whether `sub` occurs contiguously in the list (Python `sub in s`). -/
def listHasSub (sub : List Char) : List Char → Bool
  | [] => sub.isEmpty
  | c :: rest => listHasPre sub (c :: rest) || listHasSub sub rest

/-- Python substring containment `sub in s`. -/
def containsSubstr (s sub : String) : Bool := listHasSub sub.data s.data

/-- Split character data at every newline, keeping empty segments. -/
def splitOnNl : List Char → List (List Char)
  | [] => [[]]
  | c :: rest =>
    if c == '\n' then [] :: splitOnNl rest
    else
      match splitOnNl rest with
      | [] => [[c]]
      | g :: gs => (c :: g) :: gs

/-- Python `s.splitlines()` restricted to `\n` separators (the only separator in
the decoded git/gh output the source consumes). `"a\nb\n"` gives `["a", "b"]`. -/
def pySplitlines (s : String) : List String :=
  match s.data with
  | [] => []
  | _ :: _ =>
    let parts := (splitOnNl s.data).map (fun g => (⟨g⟩ : String))
    if s.data.getLast? == some '\n' then parts.dropLast else parts

/-- Length of the leading run of characters satisfying `p`. -/
def runLen (p : Char → Bool) : List Char → Nat
  | [] => 0
  | c :: rest => if p c then runLen p rest + 1 else 0

/-! ## Exceptions

One constructor per exception class of the source that the embedded code can
raise or catch; each carries the data its Python `__init__` stores. -/

inductive PyErr where
  | commitNotFound (commit : String) (repoPath : String)
  | fileNotFoundInRepo (filePath : String) (commit : String) (repoPath : String)
  | unknownAuthor (name email contextType contextDetail : String)
  | calledProcessError (stderr : String)
  | githubApiError (msg : String)
  | studentsConfigError (msg : String)
  | indexError
  | valueError
deriving DecidableEq

/-! ## Author and the identity registry -/

/-- `class Author` of the source (a git author / roster contributor). -/
structure Author where
  name : String
  email : String
  github_username : String
  student_id : String := ""
  other_names : List String := []
  other_emails : List String := []
  allow_auto_update : Bool := true
deriving DecidableEq

/-- Python `Author.__eq__` / `__hash__`: two Author objects are the same key
exactly when name and email agree. -/
def authEq (a b : Author) : Bool := a.name == b.name && a.email == b.email

/-- Membership in a Python `set[Author]` / dict key test (by `authEq`). -/
def authMem (xs : List Author) (a : Author) : Bool := xs.any (fun b => authEq b a)

/-- `Author._registry`: the process-wide dict keyed by (name, email). -/
abbrev Registry := List ((String × String) × Author)

/-- Python dict lookup on the registry. -/
def regLookup (reg : Registry) (k : String × String) : Option Author :=
  (reg.find? (fun e => e.1 == k)).map (fun e => e.2)

/-- Insert a key only when absent (`if key not in Author._registry`). -/
def regInsertIfAbsent (reg : Registry) (k : String × String) (a : Author) : Registry :=
  match regLookup reg k with
  | some _ => reg
  | none => reg ++ [(k, a)]

/-- `Author.register`: insert under (name, email) if absent; return the
registered (possibly pre-existing) instance. -/
def Author.register (reg : Registry) (a : Author) : Registry × Author :=
  match regLookup reg (a.name, a.email) with
  | some ex => (reg, ex)
  | none => (reg ++ [((a.name, a.email), a)], a)

/-- `Author.register_with_aliases`: register the primary identity, then every
(name, email) combination from {name} ∪ other_names × {email} ∪ other_emails,
never overwriting existing keys. -/
def Author.register_with_aliases (reg : Registry) (a : Author) : Registry × Author :=
  let p := Author.register reg a
  let registered := p.2
  let all_names := a.name :: a.other_names
  let all_emails := a.email :: a.other_emails
  let reg2 := all_names.foldl
    (fun r n => all_emails.foldl (fun r2 e => regInsertIfAbsent r2 (n, e) registered) r)
    p.1
  (reg2, registered)

/-- `Author.get`: look up a shared instance; raise `UnknownAuthorError` with the
context when the (name, email) pair is not registered. -/
def Author.get (reg : Registry) (name email context_type context_detail : String) :
    Except PyErr Author :=
  match regLookup reg (name, email) with
  | none => .error (.unknownAuthor name email context_type context_detail)
  | some a => .ok a

/-! ## Commit and co-author trailer parsing -/

/-- `class Commit` of the source. -/
structure Commit where
  hash : String
  author : Author
  date : String
  message_lines : List String
deriving DecidableEq

/-- Case-insensitive keyword removal: `dropKwCI kw l` strips the prefix whose
lowercasing is `kw` (given lowercase), returning the remainder unchanged. -/
def dropKwCI : List Char → List Char → Option (List Char)
  | [], l => some l
  | _ :: _, [] => none
  | k :: ks, c :: cs => if Char.toLower c == k then dropKwCI ks cs else none

/-- Split a list at its first `>`: `some (before, after)` with no `>` in `before`. -/
def splitFirstGt : List Char → Option (List Char × List Char)
  | [] => none
  | c :: cs =>
    if c == '>' then some ([], cs)
    else (splitFirstGt cs).map (fun p => (c :: p.1, p.2))

/-- Split `l` around its last whitespace character: `some (pre, post)` where
`pre` ends with that whitespace character and `post` follows it. -/
def lastWsSplit : List Char → Option (List Char × List Char)
  | [] => none
  | c :: rest =>
    match lastWsSplit rest with
    | some (pre, post) => some (c :: pre, post)
    | none => if pyIsSpace c then some ([c], rest) else none

/-- Whether a whitespace-free token matches `\S+@\S+`: an `@` with at least one
character before and after it. -/
def tokenHasInteriorAt (tok : List Char) : Bool :=
  match tok with
  | [] => false
  | _ :: rest => rest.dropLast.contains '@'

/-- The captured groups of the regex tail `(.+?)\s+(\S+@\S+)\s*$` against `u`
(as the Python code then uses them: group 1 is `.strip()`ped). The lazy group 1
together with the end anchor forces group 2 to be the final
whitespace-separated token; group 1 must span at least one character before the
separating whitespace. -/
def coAuthTailMatch (u : List Char) : Option (String × String) :=
  let rt := (u.reverse.dropWhile pyIsSpace).reverse
  match lastWsSplit rt with
  | none => none
  | some (pre, tok) =>
    if decide (2 ≤ pre.length) && tokenHasInteriorAt tok then
      some (⟨pyStripData pre⟩, ⟨tok⟩)
    else none

/-- Regex backtracking over a greedy separator run: try dropping `m` leading
characters for each `m` in `ms` (descending) and return the first tail match. -/
def coAuthTryDrops (u : List Char) : List Nat → Option (String × String)
  | [] => none
  | m :: ms =>
    match coAuthTailMatch (u.drop m) with
    | some r => some r
    | none => coAuthTryDrops u ms

/-- Lazy group 1 of pattern 1's tail `(.+?)\s*<([^>]+)>\s*$`: scan for the
earliest `<` (preceded by at least one character for group 1) whose first
following `>` is followed only by whitespace, with at least one character in
between (group 2). Group 1 washes out to `strip` of everything before the `<`
(the code strips both captures before use). -/
def pat1Scan (pre : List Char) : List Char → Option (String × String)
  | [] => none
  | c :: cs =>
    if c == '<' && !pre.isEmpty then
      match splitFirstGt cs with
      | some (inner, after) =>
        if !inner.isEmpty && after.all pyIsSpace then
          some (⟨pyStripData pre.reverse⟩, ⟨pyStripData inner⟩)
        else pat1Scan (c :: pre) cs
      | none => pat1Scan (c :: pre) cs
    else pat1Scan (c :: pre) cs

/-- Descending list `[k, k-1, ..., lo]`. -/
def descToFrom (lo k : Nat) : List Nat :=
  ((List.range (k + 1 - lo)).map (fun i => i + lo)).reverse

/-- Pattern 2's tail after `Co-authored-by:` — `\s*(.+?)\s+(\S+@\S+)\s*$`, with
the greedy `\s*` backtracking from the full leading whitespace run down to
nothing. -/
def pat2 (u : List Char) : Option (String × String) :=
  coAuthTryDrops u (descToFrom 0 (runLen pyIsSpace u))

/-- Pattern 3's core after `co-authored(-by)?` — `[:\s]+(.+?)\s+(\S+@\S+)\s*$`:
at least one separator, the greedy run backtracking down to a single one. -/
def pat3Core (u : List Char) : Option (String × String) :=
  let k := runLen (fun c => c == ':' || pyIsSpace c) u
  if k == 0 then none else coAuthTryDrops u (descToFrom 1 k)

/-- Pattern 3 with its optional `(?:-by)?` (greedy, backtracking to absent). -/
def pat3 (u : List Char) : Option (String × String) :=
  match dropKwCI "-by".data u with
  | some u2 =>
    match pat3Core u2 with
    | some r => some r
    | none => pat3Core u
  | none => pat3Core u

/-- One stripped message line run through the three patterns in order of
precision, as `Commit.get_co_authors` does; `some (name, email)` holds the
stripped captures of the first pattern that matched (either may strip to
empty, in which case the caller's `if name and email` gate drops the line). -/
def parseCoAuthorLine (stripped : String) : Option (String × String) :=
  let l := stripped.data
  let p12 :=
    match dropKwCI "co-authored-by:".data l with
    | none => none
    | some u =>
      match pat1Scan [] u with
      | some r => some r
      | none => pat2 u
  match p12 with
  | some r => some r
  | none =>
    match dropKwCI "co-authored".data l with
    | none => none
    | some u => pat3 u

/-- The body of `Commit.get_co_authors`'s per-line step: parse the stripped
line, and when both captures are non-empty strip stray angle brackets off the
email and resolve through the registry with context "co-author in commit" and
the 8-character hash prefix; an unregistered pair raises. -/
def coAuthorStep (reg : Registry) (hash : String) (acc : List Author) (line : String) :
    Except PyErr (List Author) :=
  match parseCoAuthorLine (pyStrip line) with
  | none => .ok acc
  | some (name, email0) =>
    if name != "" && email0 != "" then
      match Author.get reg name (pyStripAngle email0) "co-author in commit" (strTake hash 8) with
      | .error e => .error e
      | .ok a => .ok (acc ++ [a])
    else .ok acc

/-- The loop of `Commit.get_co_authors` over the message lines. -/
def coAuthorsLoop (reg : Registry) (hash : String) (acc : List Author) :
    List String → Except PyErr (List Author)
  | [] => .ok acc
  | line :: rest =>
    match coAuthorStep reg hash acc line with
    | .error e => .error e
    | .ok acc2 => coAuthorsLoop reg hash acc2 rest

/-- `Commit.get_co_authors`: parse `Co-authored-by` trailers from the message
lines and resolve each through the registry. -/
def Commit.get_co_authors (reg : Registry) (c : Commit) : Except PyErr (List Author) :=
  coAuthorsLoop reg c.hash [] c.message_lines

/-! ## The git command oracle

Each field models one `git(...)` invocation the embedded code performs; an
`.error` value carries the stderr of the `subprocess.CalledProcessError` the
real command would raise. -/

structure GitBackend where
  revParse : String → Except String String
  showCommit : String → Except String String
  blame : String → String → Except String String
  lsTree : String → Except String String
  logFiles : Except String String
  showDiff : String → Except String String

/-! ## Cache keys

The `cache_key=` f-strings the source passes to the memoizing `git` executable,
one definition per call site. -/

/-- Key of the `rev-parse` call in `Commit.get` / `TrackedFile.get`
(`f"rev-parse:{repo.repo_id}:{commit_hash}"`). -/
def revParseCacheKey (repoId commitHash : String) : String :=
  "rev-parse:" ++ repoId ++ ":" ++ commitHash

/-- Key of the `git show` call in `Commit.get` (`f"commit:{resolved_hash}"`). -/
def commitShowCacheKey (resolvedHash : String) : String := "commit:" ++ resolvedHash

/-- Key of the `ls-tree` call in `TrackedFile.files`
(`f"ls-tree:{repo.repo_id}:{commit}"`); the `commit` parameter defaults to
`"HEAD"` as in the Python signature. -/
def lsTreeCacheKey (repoId : String) (commit : String := "HEAD") : String :=
  "ls-tree:" ++ repoId ++ ":" ++ commit

/-- Key of the blame call in `TrackedFile.get`
(`f"blame:{resolved_commit}:{file_path}"`). -/
def blameCacheKey (resolvedCommit filePath : String) : String :=
  "blame:" ++ resolvedCommit ++ ":" ++ filePath

/-- Key of the `git log` call in `Repo.get_all_commits`. -/
def logFilesCacheKey (repoId : String) : String := "log-files:" ++ repoId

/-- Key of the diff call in `Repo.get_commit_non_whitespace_files`. -/
def showDiffCacheKey (repoId commitHash : String) : String :=
  "show-diff:" ++ repoId ++ ":" ++ commitHash

/-! ## Commit.get and TrackedFile -/

/-- The `while message_lines and not message_lines[-1]: pop()` loop. -/
def dropTrailingEmpty (l : List String) : List String :=
  (l.reverse.dropWhile (fun s => s == "")).reverse

/-- `Commit.get`: resolve the ref to a full hash (raising `CommitNotFoundError`
when `rev-parse` fails), fetch author name/email/date/message via `git show`,
and resolve the author through the registry (context "commit", 8-char prefix). -/
def Commit.get (g : GitBackend) (reg : Registry) (repoPath : String)
    (commit_hash : String) : Except PyErr Commit :=
  match g.revParse commit_hash with
  | .error _ => .error (.commitNotFound commit_hash repoPath)
  | .ok out =>
    let resolved_hash := pyStrip out
    match g.showCommit resolved_hash with
    | .error e => .error (.calledProcessError e)
    | .ok stdout =>
      let lines := pySplitlines stdout
      match Author.get reg (lines.getD 0 "") (lines.getD 1 "") "commit"
          (strTake resolved_hash 8) with
      | .error e => .error e
      | .ok author =>
        .ok { hash := resolved_hash, author := author, date := lines.getD 2 "",
              message_lines := dropTrailingEmpty (lines.drop 3) }

/-- `class TrackedFile`: a path with its blame lines. -/
structure TrackedFile where
  path : String
  lines : List (Commit × String)
deriving DecidableEq

/-- The blame-header test: at least 40 characters and the first 40 all lowercase
hex digits; returns those 40 characters as the commit hash. -/
def blameHeaderHash? (line : String) : Option String :=
  if decide (40 ≤ line.data.length) && (line.data.take 40).all
      (fun c => "0123456789abcdef".data.contains c) then
    some (strTake line 40)
  else none

/-- Lookup in the per-call `commit_cache` dict of `TrackedFile.get`. -/
def cacheLookup (cache : List (String × Commit)) (h : String) : Option Commit :=
  (cache.find? (fun e => e.1 == h)).map (fun e => e.2)

/-- The parsing loop of `TrackedFile.get` over the porcelain blame output:
header lines set the current hash, tab lines append (commit, content) pairs,
fetching each distinct commit once through `repo.get_commit` (which may raise). -/
def blameParseLoop (g : GitBackend) (reg : Registry) (repoPath : String)
    (current : Option String) (commit_cache : List (String × Commit))
    (acc : List (Commit × String)) :
    List String → Except PyErr (List (Commit × String))
  | [] => .ok acc
  | line :: rest =>
    match blameHeaderHash? line with
    | some h => blameParseLoop g reg repoPath (some h) commit_cache acc rest
    | none =>
      if pyStartswith line "\t" then
        match current with
        | none => blameParseLoop g reg repoPath current commit_cache acc rest
        | some h =>
          let content : String := ⟨line.data.drop 1⟩
          match cacheLookup commit_cache h with
          | some cm =>
            blameParseLoop g reg repoPath current commit_cache (acc ++ [(cm, content)]) rest
          | none =>
            match Commit.get g reg repoPath h with
            | .error e => .error e
            | .ok cm =>
              blameParseLoop g reg repoPath current (commit_cache ++ [(h, cm)])
                (acc ++ [(cm, content)]) rest
      else blameParseLoop g reg repoPath current commit_cache acc rest

/-- `TrackedFile.get`: resolve the commit, run blame; a blame failure whose
lowercased stderr contains "no such path" or "fatal:" becomes
`FileNotFoundInRepoError`, any other failure re-raises unchanged; on success
parse the porcelain output. The `commit` parameter defaults to `"HEAD"`. -/
def TrackedFile.get (g : GitBackend) (reg : Registry) (repoPath : String)
    (file_path : String) (commit : String := "HEAD") : Except PyErr TrackedFile :=
  match g.revParse commit with
  | .error _ => .error (.commitNotFound commit repoPath)
  | .ok out =>
    let resolved_commit := pyStrip out
    match g.blame resolved_commit file_path with
    | .error stderr =>
      if containsSubstr (pyLower stderr) "no such path" ||
          containsSubstr (pyLower stderr) "fatal:" then
        .error (.fileNotFoundInRepo file_path resolved_commit repoPath)
      else .error (.calledProcessError stderr)
    | .ok stdout =>
      match blameParseLoop g reg repoPath none [] [] (pySplitlines stdout) with
      | .error e => .error e
      | .ok lines => .ok { path := file_path, lines := lines }

/-! ## fnmatch (shell-glob matching, as Python fnmatch.translate builds it) -/

inductive GlobTok where
  | star
  | anyChar
  | lit (c : Char)
  | cls (neg : Bool) (items : List (Char × Char))
deriving DecidableEq

/-- Split at the first `]` (not included), per fnmatch's character-class scan. -/
def splitFirstRb : List Char → Option (List Char × List Char)
  | [] => none
  | c :: cs =>
    if c = ']' then some ([], cs)
    else (splitFirstRb cs).map (fun p => (c :: p.1, p.2))

/-- Class items: `a-b` is a range (a `-` first or last is a literal). -/
def parseClassItems : List Char → List (Char × Char)
  | a :: '-' :: b :: rest => (a, b) :: parseClassItems rest
  | a :: rest => (a, a) :: parseClassItems rest
  | [] => []

/-- The character-class content: a leading `]` belongs to the class (fnmatch
skips it before scanning for the closing `]`); `none` when unterminated. -/
def globClassCore : List Char → Option (List Char × List Char)
  | [] => none
  | c :: r3 =>
    if c = ']' then (splitFirstRb r3).map (fun p => ((']' :: p.1 : List Char), p.2))
    else splitFirstRb (c :: r3)

/-- fnmatch's `[` handling: optional `!`, a `]` in first position is literal,
then everything up to the closing `]`; `none` when unterminated (the `[` is then
a literal). -/
def globClassSplit : List Char → Option (Bool × List (Char × Char) × List Char)
  | [] => none
  | c :: body =>
    if c = '!' then (globClassCore body).map (fun p => (true, parseClassItems p.1, p.2))
    else (globClassCore (c :: body)).map (fun p => (false, parseClassItems p.1, p.2))

/-- fnmatch.translate's tokenizer. The fuel argument (instantiated with the
pattern length, which every step strictly decreases) keeps the recursion
structural so that the kernel can evaluate it; the fuel never runs out. -/
def parseGlobGo : Nat → List Char → List GlobTok
  | 0, _ => []
  | _ + 1, [] => []
  | fuel + 1, c :: rest =>
    if c = '*' then .star :: parseGlobGo fuel rest
    else if c = '?' then .anyChar :: parseGlobGo fuel rest
    else if c = '[' then
      match globClassSplit rest with
      | none => .lit '[' :: parseGlobGo fuel rest
      | some (neg, items, rest2) => .cls neg items :: parseGlobGo fuel rest2
    else .lit c :: parseGlobGo fuel rest

def parseGlob (l : List Char) : List GlobTok := parseGlobGo l.length l

/-- One character against a class: inside any of the (inclusive) ranges. -/
def classMatch (neg : Bool) (items : List (Char × Char)) (c : Char) : Bool :=
  let m := items.any (fun p => p.1.toNat ≤ c.toNat && c.toNat ≤ p.2.toNat)
  if neg then !m else m

/-- Glob matching of the whole name (re.fullmatch of the translated pattern;
`*` matches any sequence, `?` any single character). Fuel as in `parseGlobGo`:
every step decreases tokens + characters, so `globMatch` below never exhausts it. -/
def globMatchGo : Nat → List GlobTok → List Char → Bool
  | 0, _, _ => false
  | fuel + 1, ps, cs =>
    match ps, cs with
    | [], [] => true
    | .star :: ps2, [] => globMatchGo fuel ps2 []
    | .star :: ps2, c :: cs2 =>
      globMatchGo fuel ps2 (c :: cs2) || globMatchGo fuel (.star :: ps2) cs2
    | .anyChar :: ps2, _ :: cs2 => globMatchGo fuel ps2 cs2
    | .lit a :: ps2, c :: cs2 => a == c && globMatchGo fuel ps2 cs2
    | .cls n items :: ps2, c :: cs2 => classMatch n items c && globMatchGo fuel ps2 cs2
    | _, _ => false

def globMatch (ps : List GlobTok) (cs : List Char) : Bool :=
  globMatchGo (ps.length + cs.length + 1) ps cs

/-- Python `fnmatch.fnmatch(name, pattern)` (POSIX: no case folding). -/
def fnmatch (name pattern : String) : Bool := globMatch (parseGlob pattern.data) name.data

/-! ## Diff scanning and commit history -/

/-- Python `line.split(" ")`: split on every single space, keeping empties. -/
def splitOnSpace : List Char → List (List Char)
  | [] => [[]]
  | c :: rest =>
    if c == ' ' then [] :: splitOnSpace rest
    else
      match splitOnSpace rest with
      | [] => [[c]]
      | g :: gs => (c :: g) :: gs

/-- Python set insertion (modelled as an append-if-absent list). -/
def setInsert (s : List String) (x : String) : List String :=
  if s.contains x then s else s ++ [x]

/-- The unified-diff scan shared (verbatim, duplicated in the source) by
`Repo.get_commit_non_whitespace_files` and
`Repo._get_pr_diff_non_whitespace_files`: `diff --git a/p b/p` headers set the
current file (4th space-separated token, `b/` stripped); `+`/`-` lines other
than `+++`/`---` whose remainder strips non-empty mark the current file. -/
def diffScanLoop (current : Option String) (acc : List String) :
    List String → List String
  | [] => acc
  | line :: rest =>
    if pyStartswith line "diff --git " then
      let parts := (splitOnSpace line.data).map (fun g => (⟨g⟩ : String))
      if decide (4 ≤ parts.length) then
        let b_path := parts.getD 3 ""
        let cf : String :=
          if pyStartswith b_path "b/" then ⟨b_path.data.drop 2⟩ else b_path
        diffScanLoop (some cf) acc rest
      else diffScanLoop current acc rest
    else
      match current with
      | some cf =>
        if cf != "" && (pyStartswith line "+" || pyStartswith line "-") then
          if pyStartswith line "+++" || pyStartswith line "---" then
            diffScanLoop (some cf) acc rest
          else if pyStripData (line.data.drop 1) != [] then
            diffScanLoop (some cf) (setInsert acc cf) rest
          else diffScanLoop (some cf) acc rest
        else diffScanLoop (some cf) acc rest
      | none => diffScanLoop none acc rest

/-- `Repo.get_commit_non_whitespace_files`: the set of paths of a commit's diff
with non-whitespace `+`/`-` content; any failure to obtain the diff yields the
empty set. -/
def Repo.get_commit_non_whitespace_files (g : GitBackend) (commit_hash : String) :
    List String :=
  match g.showDiff commit_hash with
  | .error _ => []
  | .ok diff_output => diffScanLoop none [] (pySplitlines diff_output)

/-- Full 40-character lowercase hex test of `Repo.get_all_commits`. -/
def isFullHexHash (l : List Char) : Bool :=
  decide (l.length = 40) && l.all (fun c => "0123456789abcdef".data.contains c)

/-- The accumulation loop of `Repo.get_all_commits` over `git log
--pretty=format:%H --name-only` output. -/
def gacLoop (current : Option String) (files : List String)
    (acc : List (String × List String)) : List String → List (String × List String)
  | [] =>
    match current with
    | some h => acc ++ [(h, files)]
    | none => acc
  | line0 :: rest =>
    let line := pyStrip line0
    if line == "" then gacLoop current files acc rest
    else if isFullHexHash line.data then
      match current with
      | some h => gacLoop (some line) [] (acc ++ [(h, files)]) rest
      | none => gacLoop (some line) [] acc rest
    else gacLoop current (files ++ [line]) acc rest

/-- `Repo.get_all_commits`: every commit hash paired with the files it touched. -/
def Repo.get_all_commits (g : GitBackend) : Except PyErr (List (String × List String)) :=
  match g.logFiles with
  | .error e => .error (.calledProcessError e)
  | .ok stdout => .ok (gacLoop none [] [] (pySplitlines stdout))

/-- The path enumeration inside `TrackedFile.files`: the `ls-tree` output lines
matching the glob pattern (each is then handed to `TrackedFile.get`). -/
def TrackedFile.filesPaths (lsTreeOut : String) (pattern : String) : List String :=
  (pySplitlines lsTreeOut).filter (fun p => fnmatch p pattern)

example : fnmatch "src/a.py" "*" = true := by decide
example : fnmatch "src/a.py" "*.py" = true := by decide
example : fnmatch "src/a.pyc" "*.py" = false := by decide
example : fnmatch "a1.py" "a[0-9].py" = true := by decide
example : fnmatch "ax.py" "a[0-9].py" = false := by decide
example : fnmatch "ax.py" "a[!0-9].py" = true := by decide
example : fnmatch "a?c" "a[?]c" = true := by decide

/-! ## The students configuration (`StudentsConfig.from_dict`) -/

/-- Parsed JSON values (ints stand for JSON numbers; the config uses none of
the float-only range). -/
inductive JValue where
  | null
  | bool (b : Bool)
  | num (n : Int)
  | str (s : String)
  | arr (xs : List JValue)
  | obj (fields : List (String × JValue))

/-- Python dict lookup `d.get(key)` on a parsed JSON object. -/
def jGet (fields : List (String × JValue)) (key : String) : Option JValue :=
  (fields.find? (fun e => e.1 == key)).map (fun e => e.2)

/-- Python truthiness of a JSON value. -/
def pyTruthy : JValue → Bool
  | .null => false
  | .bool b => b
  | .num n => n != 0
  | .str s => s != ""
  | .arr xs => !xs.isEmpty
  | .obj fs => !fs.isEmpty

/-- Python `str(x)` for the JSON scalars the config holds (for a list or dict
Python would produce its repr; the claims never reach that case). -/
def pyStr : JValue → String
  | .str s => s
  | .num n => toString n
  | .bool true => "True"
  | .bool false => "False"
  | .null => "None"
  | .arr _ => "<list>"
  | .obj _ => "<dict>"

/-- `list(d.get(key) or [])` for the optional alias-list fields: a missing or
falsy value gives `[]`; elements pass through `str` only in the unreachable
non-string case. -/
def jStrListOrEmpty (v : Option JValue) : List String :=
  match v with
  | some (.arr xs) => xs.map pyStr
  | _ => []

/-- `str(d.get(key) or "")`. -/
def jStrOrEmpty (v : Option JValue) : String :=
  match v with
  | some x => if pyTruthy x then pyStr x else ""
  | none => ""

/-- `bool(d.get(key, default))`. -/
def jBoolD (v : Option JValue) (d : Bool) : Bool :=
  match v with
  | some x => pyTruthy x
  | none => d

/-- Presence-and-truthiness of a required field: the negation of the source's
`if key not in s or not s[key]`. -/
def studentFieldOk (s : List (String × JValue)) (key : String) : Bool :=
  match jGet s key with
  | none => false
  | some v => pyTruthy v

/-- The per-entry validation and construction of the `students` loop of
`StudentsConfig.from_dict`: `id`, `name`, `email` must be present and truthy,
`github_username` must merely be present (the source has no emptiness check on
it); on success the `Author` is built field by field as in the source. -/
def parseStudentEntry (i : Nat) (entry : JValue) : Except PyErr Author :=
  match entry with
  | .obj s =>
    if !studentFieldOk s "id" then
      .error (.studentsConfigError ("Student entry " ++ toString i ++ " missing 'id'"))
    else if !studentFieldOk s "name" then
      .error (.studentsConfigError ("Student entry " ++ toString i ++ " missing 'name'"))
    else if !studentFieldOk s "email" then
      .error (.studentsConfigError ("Student entry " ++ toString i ++ " missing 'email'"))
    else if ((jGet s "github_username").isNone : Bool) then
      .error (.studentsConfigError
        ("Student entry " ++ toString i ++ " missing 'github_username'"))
    else
      .ok { name := pyStr ((jGet s "name").getD .null),
            email := pyStr ((jGet s "email").getD .null),
            github_username := pyStr ((jGet s "github_username").getD .null),
            student_id := pyStr ((jGet s "id").getD .null),
            other_names := jStrListOrEmpty (jGet s "other_names"),
            other_emails := jStrListOrEmpty (jGet s "other_emails"),
            allow_auto_update := jBoolD (jGet s "allow_auto_update") true }
  | _ => .error (.studentsConfigError ("Student entry " ++ toString i ++ " must be an object"))

/-- Whether a student entry passes `parseStudentEntry`'s checks (the index only
feeds the error message). -/
def studentEntryOk : JValue → Bool
  | .obj s =>
    studentFieldOk s "id" && studentFieldOk s "name" && studentFieldOk s "email" &&
      (jGet s "github_username").isSome
  | _ => false

/-- The `students` loop: validate each entry, register it with its aliases, and
collect the registered instances, threading the registry. -/
def validateStudents (reg : Registry) (i : Nat) :
    List JValue → Except PyErr (List Author × Registry)
  | [] => .ok ([], reg)
  | entry :: rest =>
    match parseStudentEntry i entry with
    | .error e => .error e
    | .ok a =>
      let p := Author.register_with_aliases reg a
      match validateStudents p.1 (i + 1) rest with
      | .error e => .error e
      | .ok pr => .ok (p.2 :: pr.1, pr.2)

/-- The per-entry validation and construction of the `ignore` loop: `name` must
be present and truthy; `email` must be present but may be empty. -/
def parseIgnoreEntry (i : Nat) (entry : JValue) : Except PyErr Author :=
  match entry with
  | .obj e =>
    if !studentFieldOk e "name" then
      .error (.studentsConfigError ("Ignore entry " ++ toString i ++ " missing 'name'"))
    else if ((jGet e "email").isNone : Bool) then
      .error (.studentsConfigError ("Ignore entry " ++ toString i ++ " missing 'email'"))
    else
      .ok { name := pyStr ((jGet e "name").getD .null),
            email := jStrOrEmpty (jGet e "email"),
            github_username := jStrOrEmpty (jGet e "github_username"),
            other_names := jStrListOrEmpty (jGet e "other_names"),
            other_emails := jStrListOrEmpty (jGet e "other_emails"),
            allow_auto_update := jBoolD (jGet e "allow_auto_update") true }
  | _ => .error (.studentsConfigError ("Ignore entry " ++ toString i ++ " must be an object"))

/-- The `ignore` loop of `StudentsConfig.from_dict`. -/
def validateIgnore (reg : Registry) (i : Nat) :
    List JValue → Except PyErr (List Author × Registry)
  | [] => .ok ([], reg)
  | entry :: rest =>
    match parseIgnoreEntry i entry with
    | .error e => .error e
    | .ok a =>
      let p := Author.register_with_aliases reg a
      match validateIgnore p.1 (i + 1) rest with
      | .error e => .error e
      | .ok pr => .ok (p.2 :: pr.1, pr.2)

/-- `if key in files_config: must be a list; [str(p) for p in ...]`. -/
def parsePatterns (files_config : List (String × JValue)) (key : String) :
    Except PyErr (List String) :=
  match jGet files_config key with
  | none => .ok []
  | some (.arr xs) => .ok (xs.map pyStr)
  | some _ => .error (.studentsConfigError ("'files." ++ key ++ "' must be a list"))

/-- `class StudentsConfig`. -/
structure StudentsConfig where
  students : List Author
  ignore : List Author
  include_patterns : List String
  exclude_patterns : List String
deriving DecidableEq

/-- `StudentsConfig.from_dict`: validate `students`, `ignore` and `files` in
order, registering every author (and aliases) as a side effect on the registry. -/
def StudentsConfig.from_dict (reg : Registry) (data : List (String × JValue)) :
    Except PyErr (StudentsConfig × Registry) :=
  match jGet data "students" with
  | none => .error (.studentsConfigError "Config missing 'students' field")
  | some sv =>
    match sv with
    | .arr students_raw =>
      match validateStudents reg 0 students_raw with
      | .error e => .error e
      | .ok (students, reg1) =>
        match jGet data "ignore" with
        | none => .error (.studentsConfigError "Config missing 'ignore' field")
        | some iv =>
          match iv with
          | .arr ignore_raw =>
            match validateIgnore reg1 0 ignore_raw with
            | .error e => .error e
            | .ok (ignore, reg2) =>
              match (jGet data "files").getD (.obj []) with
              | .obj files_config =>
                match parsePatterns files_config "include" with
                | .error e => .error e
                | .ok include_patterns =>
                  match parsePatterns files_config "exclude" with
                  | .error e => .error e
                  | .ok exclude_patterns =>
                    .ok ({ students := students, ignore := ignore,
                           include_patterns := include_patterns,
                           exclude_patterns := exclude_patterns }, reg2)
              | _ => .error (.studentsConfigError "'files' must be an object")
          | _ => .error (.studentsConfigError "'ignore' must be a list")
    | _ => .error (.studentsConfigError "'students' must be a list")

/-! ## Attribution: line and commit passes -/

/-- `LinesData = dict[Author, dict[str, list[str]]]` (association list keyed by
Python Author equality). -/
abbrev LinesData := List (Author × List (String × List String))

/-- `CommitsData = dict[Author, set[str]]`. -/
abbrev CommitsData := List (Author × List String)

/-- The dict comprehension `{s: ... for s in students}` with empty initial
values (a duplicate (name, email) key would collapse, as in Python). -/
def linesInit (students : List Author) : LinesData :=
  students.foldl (fun d s => if d.any (fun e => authEq e.1 s) then d else d ++ [(s, [])]) []

def commitsInit (students : List Author) : CommitsData :=
  students.foldl (fun d s => if d.any (fun e => authEq e.1 s) then d else d ++ [(s, [])]) []

/-- Python `author in lines_dict` (dict key test). -/
def linesHasKey (d : LinesData) (a : Author) : Bool := d.any (fun e => authEq e.1 a)

def commitsHasKey (d : CommitsData) (a : Author) : Bool := d.any (fun e => authEq e.1 a)

/-- `if path not in m: m[path] = []` then `m[path].append(content)`. -/
def fileListAppend (m : List (String × List String)) (path content : String) :
    List (String × List String) :=
  match m.find? (fun e => e.1 == path) with
  | none => m ++ [(path, [content])]
  | some _ => m.map (fun e => if e.1 == path then (e.1, e.2 ++ [content]) else e)

/-- Append one blame line's content under (author, path); a no-op when the
author is not a dict key (the source guards with `in` first). -/
def linesAppend (d : LinesData) (a : Author) (path content : String) : LinesData :=
  d.map (fun e => if authEq e.1 a then (e.1, fileListAppend e.2 path content) else e)

/-- `d[author].add(hash)` (no-op when the author is not a key). -/
def commitsAdd (d : CommitsData) (a : Author) (h : String) : CommitsData :=
  d.map (fun e => if authEq e.1 a then (e.1, setInsert e.2 h) else e)

/-- `if path not in file_commits: file_commits[path] = set()` then `.add(hash)`. -/
def fileCommitsAdd (fc : List (String × List String)) (path h : String) :
    List (String × List String) :=
  match fc.find? (fun e => e.1 == path) with
  | none => fc ++ [(path, setInsert [] h)]
  | some _ => fc.map (fun e => if e.1 == path then (e.1, setInsert e.2 h) else e)

/-- Lookup in the `coauthors_cache` dict. -/
def coCacheLookup (cache : List (String × List Author)) (h : String) :
    Option (List Author) :=
  (cache.find? (fun e => e.1 == h)).map (fun e => e.2)

/-- `if key not in coauthors_cache: coauthors_cache[key] = commit.get_co_authors()`
followed by the lookup; returns the updated cache with the co-author list.
The line pass keys by `commit.hash`, the commit pass by the history loop's
`commit_hash`, so the key is a parameter. -/
def coAuthorsCached (reg : Registry) (cache : List (String × List Author))
    (key : String) (commit : Commit) :
    Except PyErr (List (String × List Author) × List Author) :=
  match coCacheLookup cache key with
  | some cas => .ok (cache, cas)
  | none =>
    match Commit.get_co_authors reg commit with
    | .error e => .error e
    | .ok cas => .ok (cache ++ [(key, cas)], cas)

/-- The `should_exclude` helper (a for-loop over `fnmatch` in the source). -/
def should_exclude (exclude_patterns : List String) (file_path : String) : Bool :=
  exclude_patterns.any (fun pat => fnmatch file_path pat)

/-- The `matches_include` helper. -/
def matches_include (include_patterns : List String) (file_path : String) : Bool :=
  include_patterns.any (fun pat => fnmatch file_path pat)

/-- The mutable state of `_collect_line_stats`. -/
structure LineState where
  alone_lines : LinesData
  collab_lines : LinesData
  file_commits : List (String × List String)
  coauthors_cache : List (String × List Author)
deriving DecidableEq

/-- The body of `_collect_line_stats`'s inner loop for one blame line: skip
whitespace-only content and ignored authors, record the commit against the
file, classify by valid (non-ignored) co-authors, and append the content to the
collab buckets of author and co-authors, or to the author's alone bucket. -/
def processTrackedLine (reg : Registry) (ignored : List Author) (path : String)
    (st : LineState) (entry : Commit × String) : Except PyErr LineState :=
  let commit := entry.1
  let content := entry.2
  if pyStrip content == "" then .ok st
  else if authMem ignored commit.author then .ok st
  else
    let fc := fileCommitsAdd st.file_commits path commit.hash
    match coAuthorsCached reg st.coauthors_cache commit.hash commit with
    | .error e => .error e
    | .ok (cache2, co_authors) =>
      let valid_co_authors := co_authors.filter (fun ca => !authMem ignored ca)
      if !valid_co_authors.isEmpty then
        let d1 :=
          if linesHasKey st.collab_lines commit.author then
            linesAppend st.collab_lines commit.author path content
          else st.collab_lines
        let d2 := valid_co_authors.foldl
          (fun d ca => if linesHasKey d ca then linesAppend d ca path content else d) d1
        .ok { st with collab_lines := d2, file_commits := fc, coauthors_cache := cache2 }
      else
        let d1 :=
          if linesHasKey st.alone_lines commit.author then
            linesAppend st.alone_lines commit.author path content
          else st.alone_lines
        .ok { st with alone_lines := d1, file_commits := fc, coauthors_cache := cache2 }

/-- The loop over one tracked file's blame lines. -/
def trackedLinesLoop (reg : Registry) (ignored : List Author) (path : String)
    (st : LineState) : List (Commit × String) → Except PyErr LineState
  | [] => .ok st
  | e :: rest =>
    match processTrackedLine reg ignored path st e with
    | .error er => .error er
    | .ok st2 => trackedLinesLoop reg ignored path st2 rest

/-- One tracked file in `_collect_line_stats`: skip excluded paths, else fold
over the blame lines. -/
def processTrackedFile (reg : Registry) (ignored : List Author)
    (exclude_patterns : List String) (st : LineState) (tf : TrackedFile) :
    Except PyErr LineState :=
  if should_exclude exclude_patterns tf.path then .ok st
  else trackedLinesLoop reg ignored tf.path st tf.lines

/-- The per-pattern file iteration (`repo.files(pattern)` interleaved with the
processing, as the Python generator is). -/
def lineFilesLoop (g : GitBackend) (reg : Registry) (repoPath : String)
    (ignored : List Author) (exclude_patterns : List String) (st : LineState) :
    List String → Except PyErr LineState
  | [] => .ok st
  | path :: rest =>
    match TrackedFile.get g reg repoPath path with
    | .error e => .error e
    | .ok tf =>
      match processTrackedFile reg ignored exclude_patterns st tf with
      | .error e => .error e
      | .ok st2 => lineFilesLoop g reg repoPath ignored exclude_patterns st2 rest

/-- The outer loop of `_collect_line_stats` over the include patterns. -/
def linePatternsLoop (g : GitBackend) (reg : Registry) (repoPath : String)
    (ignored : List Author) (exclude_patterns : List String) (st : LineState) :
    List String → Except PyErr LineState
  | [] => .ok st
  | pattern :: rest =>
    match g.lsTree "HEAD" with
    | .error e => .error (.calledProcessError e)
    | .ok out =>
      match lineFilesLoop g reg repoPath ignored exclude_patterns st
          (TrackedFile.filesPaths out pattern) with
      | .error e => .error e
      | .ok st2 => linePatternsLoop g reg repoPath ignored exclude_patterns st2 rest

/-- `_collect_line_stats`: line attribution over every include pattern. -/
def _collect_line_stats (g : GitBackend) (reg : Registry) (repoPath : String)
    (students_config : StudentsConfig) (ignored_authors : List Author)
    (include_patterns exclude_patterns : List String) : Except PyErr LineState :=
  linePatternsLoop g reg repoPath ignored_authors exclude_patterns
    { alone_lines := linesInit students_config.students,
      collab_lines := linesInit students_config.students,
      file_commits := [], coauthors_cache := [] }
    include_patterns

/-- The mutable state of `_collect_commit_stats` (the co-author cache is shared
with the line pass: Python mutates the passed-in dict). -/
structure CommitState where
  alone_commits : CommitsData
  collab_commits : CommitsData
  coauthors_cache : List (String × List Author)
deriving DecidableEq

/-- One history entry (commit hash, touched files) in `_collect_commit_stats`:
skip when no touched file passes the filters, skip when no matching file has
non-whitespace changes, resolve the commit — catching exactly
`CommitNotFoundError` and `UnknownAuthorError` by skipping — then classify the
hash into alone/collab commit sets (the later `get_co_authors` call sits
outside that try block, so its errors propagate). -/
def processCommitEntry (g : GitBackend) (reg : Registry) (repoPath : String)
    (ignored : List Author) (include_patterns exclude_patterns : List String)
    (st : CommitState) (entry : String × List String) : Except PyErr CommitState :=
  let commit_hash := entry.1
  let matching_files := entry.2.filter
    (fun f => matches_include include_patterns f && !should_exclude exclude_patterns f)
  if matching_files.isEmpty then .ok st
  else
    let non_ws := Repo.get_commit_non_whitespace_files g commit_hash
    if !matching_files.any (fun f => non_ws.contains f) then .ok st
    else
      match Commit.get g reg repoPath commit_hash with
      | .error (.commitNotFound _ _) => .ok st
      | .error (.unknownAuthor _ _ _ _) => .ok st
      | .error e => .error e
      | .ok commit =>
        if authMem ignored commit.author then .ok st
        else
          match coAuthorsCached reg st.coauthors_cache commit_hash commit with
          | .error e => .error e
          | .ok (cache2, co_authors) =>
            let valid_co_authors := co_authors.filter (fun ca => !authMem ignored ca)
            if !valid_co_authors.isEmpty then
              let d1 :=
                if commitsHasKey st.collab_commits commit.author then
                  commitsAdd st.collab_commits commit.author commit_hash
                else st.collab_commits
              let d2 := valid_co_authors.foldl
                (fun d ca => if commitsHasKey d ca then commitsAdd d ca commit_hash else d) d1
              .ok { st with collab_commits := d2, coauthors_cache := cache2 }
            else
              let d1 :=
                if commitsHasKey st.alone_commits commit.author then
                  commitsAdd st.alone_commits commit.author commit_hash
                else st.alone_commits
              .ok { st with alone_commits := d1, coauthors_cache := cache2 }

/-- The loop of `_collect_commit_stats` over the full history. -/
def commitEntriesLoop (g : GitBackend) (reg : Registry) (repoPath : String)
    (ignored : List Author) (include_patterns exclude_patterns : List String)
    (st : CommitState) : List (String × List String) → Except PyErr CommitState
  | [] => .ok st
  | entry :: rest =>
    match processCommitEntry g reg repoPath ignored include_patterns exclude_patterns
        st entry with
    | .error e => .error e
    | .ok st2 =>
      commitEntriesLoop g reg repoPath ignored include_patterns exclude_patterns st2 rest

/-- `_collect_commit_stats`: commit attribution over `repo.get_all_commits()`. -/
def _collect_commit_stats (g : GitBackend) (reg : Registry) (repoPath : String)
    (students_config : StudentsConfig) (ignored_authors : List Author)
    (include_patterns exclude_patterns : List String)
    (coauthors_cache : List (String × List Author)) : Except PyErr CommitState :=
  match Repo.get_all_commits g with
  | .error e => .error e
  | .ok entries =>
    commitEntriesLoop g reg repoPath ignored_authors include_patterns exclude_patterns
      { alone_commits := commitsInit students_config.students,
        collab_commits := commitsInit students_config.students,
        coauthors_cache := coauthors_cache }
      entries

/-! ## GitHub pull requests -/

/-- `class PullRequestReview`. -/
structure PullRequestReview where
  reviewer_username : String
  state : String
  submitted_at : String
deriving DecidableEq

/-- `class PullRequestCommit`. -/
structure PullRequestCommit where
  hash : String
  author_username : String
  author_email : String
  message : String
  date : String
  co_authors : List String
deriving DecidableEq

/-- `class PullRequestFile`. -/
structure PullRequestFile where
  path : String
  additions : Int
  deletions : Int
  has_non_whitespace_changes : Bool := true
deriving DecidableEq

/-- `class PullRequest`. -/
structure PullRequest where
  number : Nat
  author_username : String
  created_at : String
  state : String
  merged_at : Option String
  merged_by_username : Option String
  commits : List PullRequestCommit
  reviews : List PullRequestReview
  files : List PullRequestFile
deriving DecidableEq

/-- `PullRequest.is_merged`. -/
def PullRequest.is_merged (pr : PullRequest) : Bool := pr.state == "MERGED"

/-- `PullRequest.is_open`. -/
def PullRequest.is_open (pr : PullRequest) : Bool := pr.state == "OPEN"

/-! Raw `gh` JSON records, with the dict-`get` defaults the source applies
already folded into scalar fields; fields whose absence the source can observe
(`state`, the date fields, `mergedBy`) stay `Option`. -/

/-- One record of `gh pr list --json number,state`. -/
structure GhPrSummary where
  number : Nat
  state : Option String
deriving DecidableEq

/-- One review record: `author.login` (defaults applied), `state`, `submittedAt`. -/
structure GhReviewData where
  author_login : String
  state : String
  submittedAt : Option String
deriving DecidableEq

/-- One changed-file record. -/
structure GhFileData where
  path : String
  additions : Int
  deletions : Int
deriving DecidableEq

/-- One record of the full `gh pr list` query. -/
structure GhPrData where
  number : Nat
  author_login : String
  createdAt : Option String
  state : Option String
  mergedAt : Option String
  mergedBy : Option String
  reviews : List GhReviewData
  files : List GhFileData
deriving DecidableEq

/-- One commit record of `gh pr view N --json commits`: `oid`,
`authors[{login, email}]` (defaults applied), `messageHeadline`, `authoredDate`. -/
structure GhCommitData where
  oid : String
  authors : List (String × String)
  messageHeadline : String
  authoredDate : Option String
deriving DecidableEq

/-- How a `gh` invocation can fail: the command itself
(`subprocess.CalledProcessError`, carrying stderr) or its output
(`json.JSONDecodeError`). -/
inductive GhFailure where
  | processError (stderr : String)
  | jsonError (msg : String)
deriving DecidableEq

/-- The `gh` command oracle. -/
structure GhBackend where
  prListSummary : Except GhFailure (List GhPrSummary)
  prListFull : Except GhFailure (List GhPrData)
  prViewCommits : Nat → Except Unit (List GhCommitData)
  prDiff : Nat → Except Unit String

/-- The state parse both `get_pull_requests` and `_fetch_pr_details` apply:
`pr_data.get("state", "OPEN").upper()` — a record without the field counts as
"OPEN". -/
def parsePrState (state? : Option String) : String := pyUpper (state?.getD "OPEN")

/-- `d.get(key, "")[:10] if d.get(key) else ""`. -/
def truncDate (v : Option String) : String :=
  match v with
  | some s => if s != "" then strTake s 10 else ""
  | none => ""

/-- `d.get(key, "")[:10] if d.get(key) else None`. -/
def truncDateOpt (v : Option String) : Option String :=
  match v with
  | some s => if s != "" then some (strTake s 10) else none
  | none => none

/-- The GitHub-data fallback entry of `_get_pr_commits` (the `except` branch):
first author is the primary, the rest become co-authors when their login is
non-empty. -/
def buildPrCommitFallback (commit_data : GhCommitData) : PullRequestCommit :=
  match commit_data.authors with
  | primary :: rest =>
    { hash := commit_data.oid, author_username := primary.1, author_email := primary.2,
      message := commit_data.messageHeadline,
      date := truncDate commit_data.authoredDate,
      co_authors := (rest.filter (fun a => a.1 != "")).map (fun a => a.1) }
  | [] =>
    { hash := commit_data.oid, author_username := "", author_email := "",
      message := commit_data.messageHeadline,
      date := truncDate commit_data.authoredDate, co_authors := [] }

/-- The exception tuple of `_get_pr_commits`'s `except` clause:
`(subprocess.CalledProcessError, IndexError, ValueError, UnknownAuthorError)`.
Note that `CommitNotFoundError` is not among them. -/
def caughtByPrCommitFallback : PyErr → Bool
  | .calledProcessError _ => true
  | .indexError => true
  | .valueError => true
  | .unknownAuthor _ _ _ _ => true
  | _ => false

/-- One commit record inside `_get_pr_commits`: skip an empty oid; try the
local-git route (`repo.get_commit` then `get_co_authors`); on an error caught
by the `except` tuple fall back to the GitHub record; any other error
propagates. -/
def getPrCommitEntry (g : GitBackend) (reg : Registry) (repoPath : String)
    (commit_data : GhCommitData) : Except PyErr (Option PullRequestCommit) :=
  if commit_data.oid == "" then .ok none
  else
    let attempt : Except PyErr PullRequestCommit :=
      match Commit.get g reg repoPath commit_data.oid with
      | .error e => .error e
      | .ok local_commit =>
        match Commit.get_co_authors reg local_commit with
        | .error e => .error e
        | .ok co_author_objects =>
          .ok { hash := commit_data.oid,
                author_username := local_commit.author.github_username,
                author_email := local_commit.author.email,
                message := local_commit.message_lines.headD "",
                date := local_commit.date,
                co_authors := co_author_objects.map
                  (fun ca => if ca.github_username != "" then ca.github_username else ca.name) }
    match attempt with
    | .ok c => .ok (some c)
    | .error e =>
      if caughtByPrCommitFallback e then .ok (some (buildPrCommitFallback commit_data))
      else .error e

/-- The loop of `_get_pr_commits` over the fetched commit records. -/
def prCommitsLoop (g : GitBackend) (reg : Registry) (repoPath : String)
    (acc : List PullRequestCommit) : List GhCommitData → Except PyErr (List PullRequestCommit)
  | [] => .ok acc
  | cd :: rest =>
    match getPrCommitEntry g reg repoPath cd with
    | .error e => .error e
    | .ok none => prCommitsLoop g reg repoPath acc rest
    | .ok (some c) => prCommitsLoop g reg repoPath (acc ++ [c]) rest

/-- `Repo._get_pr_commits`: commit list of one PR, preferring local git; a
failure of the `gh pr view` query itself yields the empty list. -/
def Repo._get_pr_commits (g : GitBackend) (gh : GhBackend) (reg : Registry)
    (repoPath : String) (pr_number : Nat) : Except PyErr (List PullRequestCommit) :=
  match gh.prViewCommits pr_number with
  | .error _ => .ok []
  | .ok data => prCommitsLoop g reg repoPath [] data

/-- `Repo._get_pr_diff_non_whitespace_files`: the diff scan over `gh pr diff`;
a failing diff yields the empty set. -/
def Repo._get_pr_diff_non_whitespace_files (gh : GhBackend) (pr_number : Nat) :
    List String :=
  match gh.prDiff pr_number with
  | .error _ => []
  | .ok diff_output => diffScanLoop none [] (pySplitlines diff_output)

/-- The `PullRequest(...)` construction inside `_fetch_pr_details`'s loop. -/
def buildPullRequest (pr_data : GhPrData) (commits : List PullRequestCommit)
    (non_ws_files : List String) : PullRequest :=
  { number := pr_data.number,
    author_username := pr_data.author_login,
    created_at := truncDate pr_data.createdAt,
    state := parsePrState pr_data.state,
    merged_at := truncDateOpt pr_data.mergedAt,
    merged_by_username := pr_data.mergedBy,
    commits := commits,
    reviews := pr_data.reviews.map (fun r =>
      { reviewer_username := r.author_login, state := r.state,
        submitted_at := truncDate r.submittedAt }),
    files := (pr_data.files.filter (fun f => f.path != "")).map (fun f =>
      { path := f.path, additions := f.additions, deletions := f.deletions,
        has_non_whitespace_changes := non_ws_files.contains f.path }) }

/-- The loop of `_fetch_pr_details`: keep only requested numbers, fetch each
PR's commits and non-whitespace diff files, and build the record. -/
def fetchPrLoop (g : GitBackend) (gh : GhBackend) (reg : Registry) (repoPath : String)
    (pr_number_set : List Nat) (acc : List PullRequest) :
    List GhPrData → Except PyErr (List PullRequest)
  | [] => .ok acc
  | pr_data :: rest =>
    if !pr_number_set.contains pr_data.number then
      fetchPrLoop g gh reg repoPath pr_number_set acc rest
    else
      match Repo._get_pr_commits g gh reg repoPath pr_data.number with
      | .error e => .error e
      | .ok commits =>
        let non_ws := Repo._get_pr_diff_non_whitespace_files gh pr_data.number
        fetchPrLoop g gh reg repoPath pr_number_set
          (acc ++ [buildPullRequest pr_data commits non_ws]) rest

/-- `Repo._fetch_pr_details`. -/
def Repo._fetch_pr_details (g : GitBackend) (gh : GhBackend) (reg : Registry)
    (repoPath : String) (pr_numbers : List Nat) : Except PyErr (List PullRequest) :=
  if pr_numbers.isEmpty then .ok []
  else
    match gh.prListFull with
    | .error (.processError stderr) =>
      .error (.githubApiError ("Failed to fetch pull requests: " ++ stderr))
    | .error (.jsonError m) => .error (.githubApiError ("Invalid JSON from gh: " ++ m))
    | .ok data => fetchPrLoop g gh reg repoPath pr_numbers [] data

/-- The `_pr_cache` dict: (repo identity, PR number) → finalized PullRequest. -/
abbrev PrCache := List ((String × Nat) × PullRequest)

def prCacheLookup (c : PrCache) (k : String × Nat) : Option PullRequest :=
  (c.find? (fun e => e.1 == k)).map (fun e => e.2)

/-- `_pr_cache[(repo_key, pr.number)] = pr` (dict assignment overwrites). -/
def prCacheInsert (c : PrCache) (k : String × Nat) (pr : PullRequest) : PrCache :=
  match prCacheLookup c k with
  | some _ => c.map (fun e => if e.1 == k then (k, pr) else e)
  | none => c ++ [(k, pr)]

/-- The summary loop of `get_pull_requests`: a non-"OPEN" parsed state with a
cache hit reuses the cached record, everything else is queued for a full fetch. -/
def prSummaryLoop (cache : PrCache) (repo_key : String)
    (prs : List PullRequest) (to_fetch : List Nat) :
    List GhPrSummary → List PullRequest × List Nat
  | [] => (prs, to_fetch)
  | pr_info :: rest =>
    let state := parsePrState pr_info.state
    if state != "OPEN" then
      match prCacheLookup cache (repo_key, pr_info.number) with
      | some pr => prSummaryLoop cache repo_key (prs ++ [pr]) to_fetch rest
      | none => prSummaryLoop cache repo_key prs (to_fetch ++ [pr_info.number]) rest
    else prSummaryLoop cache repo_key prs (to_fetch ++ [pr_info.number]) rest

/-- The caching loop over freshly fetched PRs: append each to the result and
write the non-open ones into the cache. -/
def prFetchedLoop (repo_key : String) (prs : List PullRequest) (cache : PrCache) :
    List PullRequest → List PullRequest × PrCache
  | [] => (prs, cache)
  | pr :: rest =>
    let cache2 :=
      if !pr.is_open then prCacheInsert cache (repo_key, pr.number) pr else cache
    prFetchedLoop repo_key (prs ++ [pr]) cache2 rest

/-- `Repo.get_pull_requests`: list numbers and states, reuse cached closed PRs,
batch-fetch the rest, and cache the newly fetched non-open ones. Returns the
listing together with the updated `_pr_cache`. -/
def Repo.get_pull_requests (g : GitBackend) (gh : GhBackend) (reg : Registry)
    (repoPath repo_key : String) (cache : PrCache) :
    Except PyErr (List PullRequest × PrCache) :=
  match gh.prListSummary with
  | .error (.processError stderr) =>
    .error (.githubApiError ("Failed to fetch pull requests: " ++ stderr))
  | .error (.jsonError m) => .error (.githubApiError ("Invalid JSON from gh: " ++ m))
  | .ok pr_summary =>
    let p := prSummaryLoop cache repo_key [] [] pr_summary
    if !p.2.isEmpty then
      match Repo._fetch_pr_details g gh reg repoPath p.2 with
      | .error e => .error e
      | .ok fetched => .ok (prFetchedLoop repo_key p.1 cache fetched)
    else .ok (p.1, cache)

/-! ## GitHub statistics (`_collect_github_stats`) -/

/-- `class GitHubStats`. -/
structure GitHubStats where
  prs_alone_merged : Nat := 0
  prs_alone_open : Nat := 0
  prs_collab_merged : Nat := 0
  prs_collab_open : Nat := 0
  approvals_given : Nat := 0
  change_requests_given : Nat := 0
deriving DecidableEq

/-- `GitHubStatsData = dict[Author, GitHubStats]`. -/
abbrev GitHubStatsData := List (Author × GitHubStats)

/-- One student into the handle dict: insert under the lowered handle,
overwriting an existing entry (Python dict assignment). -/
def utaStep (d : List (String × Author)) (s : Author) : List (String × Author) :=
  let k := pyLower s.github_username
  if d.any (fun e => e.1 == k) then d.map (fun e => if e.1 == k then (k, s) else e)
  else d ++ [(k, s)]

/-- The dict `{student.github_username.lower(): student for student in students}`
(a later duplicate lowered handle overwrites the earlier entry, as in Python). -/
def username_to_author (students : List Author) : List (String × Author) :=
  students.foldl utaStep []

/-- The lookup `username_to_author.get(u.lower())` (the caller always lowercases
the queried handle; the fold into one definition mirrors every call site). -/
def userLookup (m : List (String × Author)) (u : String) : Option Author :=
  (m.find? (fun e => e.1 == pyLower u)).map (fun e => e.2)

/-- `{s: GitHubStats() for s in students_config.students}`. -/
def statsInit (students : List Author) : GitHubStatsData :=
  students.foldl
    (fun d s =>
      if d.any (fun e => authEq e.1 s) then d
      else d ++ [(s, ({ } : GitHubStats))]) []

/-- `stats[author].<field> += 1`: update the entry with the author's key (in
Python a missing key would raise `KeyError`; every looked-up author is a roster
student, hence present). -/
def statsModify (d : GitHubStatsData) (a : Author) (f : GitHubStats → GitHubStats) :
    GitHubStatsData :=
  d.map (fun e => if authEq e.1 a then (e.1, f e.2) else e)

/-- The `pr_has_matching_files` helper of `_collect_github_stats`. -/
def pr_has_matching_files (include_patterns exclude_patterns : List String)
    (pr : PullRequest) : Bool :=
  pr.files.any (fun f =>
    matches_include include_patterns f.path && !should_exclude exclude_patterns f.path &&
      f.has_non_whitespace_changes)

/-- The `pr_is_collab` helper: any commit with a non-empty co-author list. -/
def pr_is_collab (pr : PullRequest) : Bool :=
  pr.commits.any (fun c => !c.co_authors.isEmpty)

/-- One review in the dedup counting loop: resolve the reviewer, count an
`APPROVED` (resp. `CHANGES_REQUESTED`) review once per reviewer per PR via the
seen sets. The accumulator is (stats, seen_approvers, seen_change_requesters). -/
def reviewStep (userMap : List (String × Author))
    (acc : GitHubStatsData × List Author × List Author) (review : PullRequestReview) :
    GitHubStatsData × List Author × List Author :=
  match userLookup userMap review.reviewer_username with
  | none => acc
  | some reviewer =>
    if review.state == "APPROVED" then
      if authMem acc.2.1 reviewer then acc
      else
        (statsModify acc.1 reviewer
          (fun gs => { gs with approvals_given := gs.approvals_given + 1 }),
         acc.2.1 ++ [reviewer], acc.2.2)
    else if review.state == "CHANGES_REQUESTED" then
      if authMem acc.2.2 reviewer then acc
      else
        (statsModify acc.1 reviewer
          (fun gs => { gs with change_requests_given := gs.change_requests_given + 1 }),
         acc.2.1, acc.2.2 ++ [reviewer])
    else acc

/-- The review-counting segment of `_collect_github_stats`'s per-PR body
(fresh seen sets per PR). -/
def processReviews (userMap : List (String × Author)) (stats : GitHubStatsData)
    (reviews : List PullRequestReview) : GitHubStatsData :=
  (reviews.foldl (reviewStep userMap) (stats, ([] : List Author), ([] : List Author))).1

/-- One PR in `_collect_github_stats`'s loop: the three `continue` gates (bot
author prefix "app/", no matching changed file with non-whitespace content,
closed without merge), then the author's alone/collab × merged/open counter,
then the review counting. -/
def processPR (userMap : List (String × Author))
    (include_patterns exclude_patterns : List String)
    (stats : GitHubStatsData) (pr : PullRequest) : GitHubStatsData :=
  if pyStartswith pr.author_username "app/" then stats
  else if !pr_has_matching_files include_patterns exclude_patterns pr then stats
  else if !pr.is_merged && !pr.is_open then stats
  else
    let stats1 :=
      match userLookup userMap pr.author_username with
      | some author =>
        if pr_is_collab pr then
          if pr.is_merged then
            statsModify stats author
              (fun gs => { gs with prs_collab_merged := gs.prs_collab_merged + 1 })
          else
            statsModify stats author
              (fun gs => { gs with prs_collab_open := gs.prs_collab_open + 1 })
        else
          if pr.is_merged then
            statsModify stats author
              (fun gs => { gs with prs_alone_merged := gs.prs_alone_merged + 1 })
          else
            statsModify stats author
              (fun gs => { gs with prs_alone_open := gs.prs_alone_open + 1 })
      | none => stats
    processReviews userMap stats1 pr.reviews

/-- `_collect_github_stats` after its `repo.get_pull_requests()` call: fold the
per-PR body over the listing (the listing itself is produced by
`Repo.get_pull_requests` above and handed in). -/
def _collect_github_stats (students_config : StudentsConfig)
    (include_patterns exclude_patterns : List String)
    (pull_requests : List PullRequest) : GitHubStatsData :=
  pull_requests.foldl
    (processPR (username_to_author students_config.students)
      include_patterns exclude_patterns)
    (statsInit students_config.students)

example : parseCoAuthorLine "Co-authored-by: A <a@x.com>" = some ("A", "a@x.com") := by decide
example : parseCoAuthorLine "Co-authored-by: A a@x.com" = some ("A", "a@x.com") := by decide
example : parseCoAuthorLine "co-authored A a@x.com" = some ("A", "a@x.com") := by decide
example : parseCoAuthorLine "co-authored-by: Bob Q <b@y.org>" = some ("Bob Q", "b@y.org") := by decide
example : parseCoAuthorLine "Reviewed-by: A <a@x.com>" = none := by decide
example : parseCoAuthorLine "Co-authored-by: <a@x.com>" = some ("", "a@x.com") := by decide

deriving instance DecidableEq for Except

/-! ## Claim C1 — cache keys -/

/-- C1 counterexample: the claim "every cache key includes the resolved
repository identity and a resolved full commit hash, and never uses a short
hash or a relative ref such as HEAD" fails on the code. At the concrete
repository identity "org/repo", calling `TrackedFile.files` with its default
`commit` argument memoizes the `ls-tree` result under a key that embeds the
relative ref "HEAD" verbatim (and the rev-parse key does the same for its
unresolved input ref), while the `git show` key of `Commit.get` for a resolved
full hash contains no repository identity at all. -/
theorem c1_counterexample :
    containsSubstr (lsTreeCacheKey "org/repo") "HEAD" = true ∧
    containsSubstr (revParseCacheKey "org/repo" "HEAD") "HEAD" = true ∧
    containsSubstr
      (commitShowCacheKey "0a1b2c3d0a1b2c3d0a1b2c3d0a1b2c3d0a1b2c3d") "org/repo" = false := by
  decide

/-- C1 (amended): the blame and commit-detail queries resolve the caller's ref
first and key everything downstream by the resolved full hash, so two refs that
rev-parse to the same output produce identical `TrackedFile.get` and
`Commit.get` results; but the file-listing key of `TrackedFile.files` records
the caller-supplied ref verbatim — the relative ref "HEAD" by default — and the
commit-detail key carries no repository identity. -/
theorem c1_resolved_hash_keys (g : GitBackend) (reg : Registry) (repoPath : String)
    (path ref1 ref2 out : String)
    (h1 : g.revParse ref1 = .ok out) (h2 : g.revParse ref2 = .ok out) :
    TrackedFile.get g reg repoPath path ref1 = TrackedFile.get g reg repoPath path ref2 ∧
    Commit.get g reg repoPath ref1 = Commit.get g reg repoPath ref2 ∧
    (∀ repoId, lsTreeCacheKey repoId = "ls-tree:" ++ repoId ++ ":" ++ "HEAD") ∧
    (∀ resolvedHash, commitShowCacheKey resolvedHash = "commit:" ++ resolvedHash) := by
  refine ⟨?_, ?_, fun _ => rfl, fun _ => rfl⟩
  · unfold TrackedFile.get
    rw [h1, h2]
  · unfold Commit.get
    rw [h1, h2]

/-- Concrete backend for the C1 witness: two refs resolving to one hash. -/
def c1g : GitBackend :=
  { revParse := fun r =>
      if r == "HEAD" || r == "ab12" then .ok "ab12ab12ab12ab12ab12ab12ab12ab12ab12ab12\n"
      else .error "fatal: bad revision",
    showCommit := fun _ => .error "boom",
    blame := fun _ _ => .error "fatal: no such path",
    lsTree := fun _ => .ok "",
    logFiles := .ok "",
    showDiff := fun _ => .error "" }

theorem c1_resolved_hash_keys_witness :
    TrackedFile.get c1g [] "/r" "f.py" "HEAD" = TrackedFile.get c1g [] "/r" "f.py" "ab12" ∧
    Commit.get c1g [] "/r" "HEAD" = Commit.get c1g [] "/r" "ab12" ∧
    (∀ repoId, lsTreeCacheKey repoId = "ls-tree:" ++ repoId ++ ":" ++ "HEAD") ∧
    (∀ resolvedHash, commitShowCacheKey resolvedHash = "commit:" ++ resolvedHash) :=
  c1_resolved_hash_keys c1g [] "/r" "f.py" "HEAD" "ab12"
    "ab12ab12ab12ab12ab12ab12ab12ab12ab12ab12\n" (by decide) (by decide)

/-! ## Claim C3 — blame error translation -/

/-- Modelled from the spec's words, for comparison with the code: "a backend
error whose message indicates the path does not exist at that commit" — git
blame reports a missing path as `fatal: no such path '<path>' in <commit>`, so
the indicator is a (lowercased) "no such path" occurrence in stderr. -/
def specIndicatesMissingPath (stderr : String) : Bool :=
  containsSubstr (pyLower stderr) "no such path"

/-- Concrete backend for the C3 counterexample: blame fails with a message that
does not indicate a missing path. -/
def c3g : GitBackend :=
  { revParse := fun _ => .ok "deadbeef",
    showCommit := fun _ => .error "boom",
    blame := fun _ _ => .error "fatal: bad object xyz",
    lsTree := fun _ => .ok "",
    logFiles := .ok "",
    showDiff := fun _ => .error "" }

/-- C3 counterexample: the claim says the failure is translated to "file not
found in repo" exactly when the message indicates the path does not exist, and
that every other failure propagates unchanged. But the code also matches on
"fatal:": the backend failure `fatal: bad object xyz` — which does not indicate
a missing path — is still translated to `FileNotFoundInRepoError` instead of
propagating. -/
theorem c3_counterexample :
    specIndicatesMissingPath "fatal: bad object xyz" = false ∧
    TrackedFile.get c3g [] "/r" "f.py" =
      .error (.fileNotFoundInRepo "f.py" "deadbeef" "/r") := by decide

/-- C3 (amended): a blame failure is translated to `FileNotFoundInRepoError`
exactly when the lowercased stderr contains "no such path" or "fatal:" (the
latter also matches failures unrelated to a missing path); any failure matching
neither propagates unchanged as the underlying process error. -/
theorem c3_blame_error_translation (g : GitBackend) (reg : Registry)
    (repoPath path commitArg out stderr : String)
    (hrev : g.revParse commitArg = .ok out)
    (hblame : g.blame (pyStrip out) path = .error stderr) :
    (TrackedFile.get g reg repoPath path commitArg =
        .error (.fileNotFoundInRepo path (pyStrip out) repoPath) ↔
      (containsSubstr (pyLower stderr) "no such path" ||
       containsSubstr (pyLower stderr) "fatal:") = true) ∧
    ((containsSubstr (pyLower stderr) "no such path" ||
      containsSubstr (pyLower stderr) "fatal:") = false →
      TrackedFile.get g reg repoPath path commitArg = .error (.calledProcessError stderr)) := by
  unfold TrackedFile.get
  rw [hrev]
  dsimp only
  rw [hblame]
  by_cases hcond : (containsSubstr (pyLower stderr) "no such path" ||
      containsSubstr (pyLower stderr) "fatal:") = true
  · simp [hcond]
  · simp only [Bool.not_eq_true] at hcond
    simp [hcond]

/-- Concrete backend for the C3 witness: a blame failure matching neither
indicator propagates unchanged. -/
def c3gw : GitBackend :=
  { revParse := fun _ => .ok "deadbeef",
    showCommit := fun _ => .error "boom",
    blame := fun _ _ => .error "permission denied",
    lsTree := fun _ => .ok "",
    logFiles := .ok "",
    showDiff := fun _ => .error "" }

theorem c3_blame_error_translation_witness :
    (TrackedFile.get c3gw [] "/r" "f.py" "HEAD" =
        .error (.fileNotFoundInRepo "f.py" "deadbeef" "/r") ↔
      (containsSubstr (pyLower "permission denied") "no such path" ||
       containsSubstr (pyLower "permission denied") "fatal:") = true) ∧
    ((containsSubstr (pyLower "permission denied") "no such path" ||
      containsSubstr (pyLower "permission denied") "fatal:") = false →
      TrackedFile.get c3gw [] "/r" "f.py" "HEAD" = .error (.calledProcessError "permission denied")) := by
  have h := c3_blame_error_translation c3gw [] "/r" "f.py" "HEAD" "deadbeef"
    "permission denied" (by decide) (by decide)
  simpa using h

/-! ## Claim C4 — per-PR commit fallback -/

/-- Git backend for C4: the commit is not resolvable locally (`rev-parse`
fails), which `Commit.get` converts into `CommitNotFoundError`. -/
def c4git : GitBackend :=
  { revParse := fun _ => .error "fatal: bad revision",
    showCommit := fun _ => .error "",
    blame := fun _ _ => .error "",
    lsTree := fun _ => .error "",
    logFiles := .error "",
    showDiff := fun _ => .error "" }

/-- Gh backend for C4: the PR has one commit record with full GitHub author
data available for the fallback. -/
def c4gh : GhBackend :=
  { prListSummary := .ok [],
    prListFull := .ok [],
    prViewCommits := fun _ =>
      .ok [{ oid := "d2f5aeb", authors := [("alice", "a@x.com")],
             messageHeadline := "msg", authoredDate := none }],
    prDiff := fun _ => .error () }

/-- C4 (code bug): the claim — matching both the spec and the source's own
"Fall back to GitHub data if local git fails" comment — says a commit whose
local lookup fails for any reason falls back to the review service's record.
But `repo.get_commit` raises `CommitNotFoundError` when the commit is not
resolvable locally, and that class is missing from the `except` tuple
`(subprocess.CalledProcessError, IndexError, ValueError, UnknownAuthorError)`,
so the most common local failure propagates out of `_get_pr_commits` (aborting
the whole listing) instead of producing the fallback entry. -/
theorem c4_commit_not_found_propagates :
    Repo._get_pr_commits c4git c4gh [] "/r" 7 =
      .error (.commitNotFound "d2f5aeb" "/r") ∧
    caughtByPrCommitFallback (.commitNotFound "d2f5aeb" "/r") = false := by decide

/-! ## Claim C7 — required student fields -/

theorem entryOk_of_parseStudentEntry (i : Nat) (v : JValue) (a : Author)
    (h : parseStudentEntry i v = .ok a) : studentEntryOk v = true := by
  cases v with
  | obj s =>
    simp only [parseStudentEntry] at h
    by_cases h1 : studentFieldOk s "id"
    · by_cases h2 : studentFieldOk s "name"
      · by_cases h3 : studentFieldOk s "email"
        · cases hg : jGet s "github_username" with
          | none => rw [hg] at h; simp [h1, h2, h3] at h
          | some gv =>
            simp only [studentEntryOk, h1, h2, h3, hg, Option.isSome_some, Bool.and_self]
        · simp [h1, h2, h3] at h
      · simp [h1, h2] at h
    · simp [h1] at h
  | null => simp [parseStudentEntry] at h
  | bool b => simp [parseStudentEntry] at h
  | num n => simp [parseStudentEntry] at h
  | str s => simp [parseStudentEntry] at h
  | arr xs => simp [parseStudentEntry] at h

theorem parseStudentEntry_ok_of_entryOk (i : Nat) (v : JValue)
    (h : studentEntryOk v = true) : ∃ a, parseStudentEntry i v = .ok a := by
  cases v with
  | obj s =>
    simp only [studentEntryOk, Bool.and_eq_true] at h
    obtain ⟨⟨⟨h1, h2⟩, h3⟩, h4⟩ := h
    cases hg : jGet s "github_username" with
    | none => rw [hg] at h4; simp at h4
    | some gv =>
      cases hp : parseStudentEntry i (.obj s) with
      | ok a => exact ⟨a, rfl⟩
      | error e => simp [parseStudentEntry, h1, h2, h3, hg] at hp
  | null => simp [studentEntryOk] at h
  | bool b => simp [studentEntryOk] at h
  | num n => simp [studentEntryOk] at h
  | str s => simp [studentEntryOk] at h
  | arr xs => simp [studentEntryOk] at h

theorem validateStudents_ok_all (entries : List JValue) :
    ∀ reg i pr, validateStudents reg i entries = .ok pr →
      entries.all studentEntryOk = true := by
  induction entries with
  | nil => intro reg i pr _; rfl
  | cons entry rest ih =>
    intro reg i pr h
    simp only [validateStudents] at h
    cases hp : parseStudentEntry i entry with
    | error e => rw [hp] at h; simp at h
    | ok a =>
      rw [hp] at h
      dsimp only at h
      cases hv : validateStudents (Author.register_with_aliases reg a).1 (i + 1) rest with
      | error e => rw [hv] at h; simp at h
      | ok pr2 =>
        simp only [List.all_cons, Bool.and_eq_true]
        exact ⟨entryOk_of_parseStudentEntry i entry a hp, ih _ _ _ hv⟩

theorem validateStudents_error_at (pre : List JValue) :
    ∀ reg i bad rest e, pre.all studentEntryOk = true →
      parseStudentEntry (i + pre.length) bad = .error e →
      validateStudents reg i (pre ++ bad :: rest) = .error e := by
  induction pre with
  | nil =>
    intro reg i bad rest e _ hbad
    simp only [List.length_nil, Nat.add_zero] at hbad
    simp only [List.nil_append, validateStudents, hbad]
  | cons p pre ih =>
    intro reg i bad rest e hall hbad
    simp only [List.all_cons, Bool.and_eq_true] at hall
    obtain ⟨a, ha⟩ := parseStudentEntry_ok_of_entryOk i p hall.1
    have hbad2 : parseStudentEntry (i + 1 + pre.length) bad = .error e := by
      have : i + 1 + pre.length = i + (p :: pre).length := by
        simp only [List.length_cons]; omega
      rw [this]; exact hbad
    simp only [List.cons_append, validateStudents, ha]
    simp only [List.append_eq]
    rw [ih _ (i + 1) bad rest e hall.2 hbad2]

/-- C7 (amended): loading fails with a configuration error naming the offending
field and index whenever a student entry is not an object or its `id`, `name`
or `email` is missing or empty (Python-falsy), or its `github_username` is
missing — and loading succeeds only when every student entry passes those
checks. An entry whose `github_username` is present but empty is NOT rejected
(the source checks only presence for that field); the counterexample below
exhibits this. -/
theorem c7_required_student_fields (reg : Registry) (data : List (String × JValue)) :
    (∀ r sv, StudentsConfig.from_dict reg data = .ok r →
      jGet data "students" = some (.arr sv) → sv.all studentEntryOk = true) ∧
    (∀ pre bad rest e, jGet data "students" = some (.arr (pre ++ bad :: rest)) →
      pre.all studentEntryOk = true → parseStudentEntry pre.length bad = .error e →
      StudentsConfig.from_dict reg data = .error e) := by
  constructor
  · intro r sv hok hs
    unfold StudentsConfig.from_dict at hok
    rw [hs] at hok
    dsimp only at hok
    cases hv : validateStudents reg 0 sv with
    | error e => rw [hv] at hok; simp at hok
    | ok pr => exact validateStudents_ok_all sv reg 0 pr hv
  · intro pre bad rest e hs hall hbad
    unfold StudentsConfig.from_dict
    rw [hs]
    dsimp only
    rw [validateStudents_error_at pre reg 0 bad rest e hall (by simpa using hbad)]

/-- Whether an embedded computation succeeded (`isinstance`-free success test
used only to state results). -/
def exceptIsOk {ε α : Type} : Except ε α → Bool
  | .ok _ => true
  | .error _ => false

/-- A config whose only student entry has an empty (but present)
`github_username`. -/
def c7data : List (String × JValue) :=
  [("students", .arr [.obj [("id", .str "1"), ("name", .str "Ann"),
      ("email", .str "a@x.com"), ("github_username", .str "")]]),
   ("ignore", .arr [])]

/-- C7 counterexample: the claim says a student entry with an empty
`github_username` is rejected; on this concrete config the load succeeds. -/
theorem c7_counterexample :
    exceptIsOk (StudentsConfig.from_dict [] c7data) = true ∧
    studentEntryOk (.obj [("id", .str "1"), ("name", .str "Ann"),
      ("email", .str "a@x.com"), ("github_username", .str "")]) = true := by decide

/-- A config whose only student entry is missing `id`. -/
def c7dataBad : List (String × JValue) :=
  [("students", .arr [.obj [("name", .str "B"), ("email", .str "b@x.com"),
      ("github_username", .str "b")]]),
   ("ignore", .arr [])]

theorem c7_required_student_fields_witness :
    StudentsConfig.from_dict [] c7dataBad =
      .error (.studentsConfigError "Student entry 0 missing 'id'") :=
  (c7_required_student_fields [] c7dataBad).2 []
    (.obj [("name", .str "B"), ("email", .str "b@x.com"), ("github_username", .str "b")])
    [] (.studentsConfigError "Student entry 0 missing 'id'")
    rfl (by decide) (by decide)

/-! ## Claim C10 — stateless PRs parse as OPEN and are never cached -/

theorem prCacheLookup_overwriteMap (c : PrCache) (k0 k : String × Nat)
    (pr : PullRequest) :
    prCacheLookup (c.map (fun e => if e.1 == k0 then (k0, pr) else e)) k =
      if k = k0 then (prCacheLookup c k0).map (fun _ => pr) else prCacheLookup c k := by
  induction c with
  | nil => by_cases hk : k = k0 <;> simp [prCacheLookup, hk]
  | cons e c ih =>
    unfold prCacheLookup at ih ⊢
    simp only [List.map_cons]
    by_cases he : e.1 = k0
    · have heb : (e.1 == k0) = true := beq_iff_eq.mpr he
      rw [if_pos heb]
      by_cases hk : k = k0
      · have h1 : (((k0, pr) : (String × Nat) × PullRequest).1 == k) = true := by
          simp [hk]
        have h2 : (e.1 == k) = true := by simp [he, hk]
        simp only [List.find?, h1, h2, heb, if_pos hk, Option.map_some']
      · have h1 : (((k0, pr) : (String × Nat) × PullRequest).1 == k) = false := by
          simp
          exact fun h => hk h.symm
        have h2 : (e.1 == k) = false := by
          simp [he]
          exact fun h => hk h.symm
        simp only [List.find?, h1, h2]
        simpa [hk] using ih
    · have h3 : (e.1 == k0) = false := by simp [he]
      rw [if_neg (by simp [h3])]
      by_cases hek : e.1 = k
      · have h5 : (e.1 == k) = true := beq_iff_eq.mpr hek
        have hk : ¬k = k0 := fun hkk => he (by rw [hek, hkk])
        simp only [List.find?, h5, if_neg hk, Option.map_some']
      · have h4 : (e.1 == k) = false := by simp [hek]
        simp only [List.find?, h4, h3]
        exact ih

theorem prCacheLookup_insert (c : PrCache) (k0 k : String × Nat) (pr : PullRequest) :
    prCacheLookup (prCacheInsert c k0 pr) k =
      if k = k0 then some pr else prCacheLookup c k := by
  unfold prCacheInsert
  cases hl : prCacheLookup c k0 with
  | none =>
    unfold prCacheLookup at hl ⊢
    have hf : c.find? (fun e => e.1 == k0) = none := by
      cases hf : c.find? (fun e => e.1 == k0) with
      | none => rfl
      | some e => rw [hf] at hl; simp at hl
    rw [List.find?_append]
    by_cases hk : k = k0
    · subst hk
      rw [hf]
      simp [List.find?]
    · have h1 : List.find? (fun e => e.1 == k) [(k0, pr)] = none := by
        simp only [List.find?]
        rw [show ((k0, pr).1 == k) = false from beq_eq_false_iff_ne.mpr (Ne.symm hk)]
      rw [h1, if_neg hk]
      cases hc : c.find? (fun e => e.1 == k) <;> simp [Option.or]
  | some pr0 =>
    rw [prCacheLookup_overwriteMap]
    by_cases hk : k = k0
    · rw [if_pos hk, if_pos hk, hl]
      rfl
    · rw [if_neg hk, if_neg hk]

theorem prFetchedLoop_cache_nonopen (repo_key : String) (fetched : List PullRequest) :
    ∀ prs cache k pr2,
      prCacheLookup (prFetchedLoop repo_key prs cache fetched).2 k = some pr2 →
      prCacheLookup cache k = some pr2 ∨ pr2.state ≠ "OPEN" := by
  induction fetched with
  | nil => intro prs cache k pr2 h; exact .inl h
  | cons pr rest ih =>
    intro prs cache k pr2 h
    simp only [prFetchedLoop] at h
    by_cases hop : pr.is_open = true
    · rw [hop] at h
      simp only [Bool.not_true, Bool.false_eq_true, if_false] at h
      exact ih _ _ _ _ h
    · rw [Bool.not_eq_true] at hop
      rw [hop] at h
      simp only [Bool.not_false, if_true] at h
      rcases ih _ _ _ _ h with h2 | h2
      · rw [prCacheLookup_insert] at h2
        by_cases hk : k = (repo_key, pr.number)
        · rw [if_pos hk] at h2
          right
          cases h2
          unfold PullRequest.is_open at hop
          exact fun hst => by rw [hst] at hop; simp at hop
        · rw [if_neg hk] at h2
          exact .inl h2
      · exact .inr h2

/-- C10: a review-request record lacking the lifecycle state field parses to
"OPEN" — both in the summary listing and when building the full record — and
consequently is never written into the persistent closed-request cache: every
entry `get_pull_requests` adds to the cache has a parsed state different from
"OPEN". -/
theorem c10_stateless_prs_parse_open_never_cached
    (g : GitBackend) (gh : GhBackend) (reg : Registry)
    (repoPath repo_key : String) (cache : PrCache) :
    parsePrState none = "OPEN" ∧
    (∀ d commits nw, d.state = none →
      (buildPullRequest d commits nw).state = "OPEN" ∧
      (buildPullRequest d commits nw).is_open = true) ∧
    (∀ prs cache2 k pr2,
      Repo.get_pull_requests g gh reg repoPath repo_key cache = .ok (prs, cache2) →
      prCacheLookup cache k = none → prCacheLookup cache2 k = some pr2 →
      pr2.state ≠ "OPEN") := by
  refine ⟨rfl, ?_, ?_⟩
  · intro d commits nw hd
    have h1 : (buildPullRequest d commits nw).state = parsePrState d.state := rfl
    constructor
    · rw [h1, hd]; decide
    · have h2 : (buildPullRequest d commits nw).is_open =
          ((buildPullRequest d commits nw).state == "OPEN") := rfl
      rw [h2, h1, hd]; decide
  · intro prs cache2 k pr2 hok hnone hsome
    unfold Repo.get_pull_requests at hok
    cases hs : gh.prListSummary with
    | error f => rw [hs] at hok; cases f <;> simp at hok
    | ok summary =>
      rw [hs] at hok
      dsimp only at hok
      by_cases hne : (prSummaryLoop cache repo_key [] [] summary).2.isEmpty
      · rw [hne] at hok
        simp only [Bool.not_true, Bool.false_eq_true, if_false, Except.ok.injEq] at hok
        have h2 : cache = cache2 := congrArg Prod.snd hok
        rw [← h2] at hsome
        rw [hnone] at hsome
        simp at hsome
      · rw [Bool.not_eq_true] at hne
        rw [hne] at hok
        simp only [Bool.not_false, if_true] at hok
        cases hf : Repo._fetch_pr_details g gh reg repoPath
            (prSummaryLoop cache repo_key [] [] summary).2 with
        | error e => rw [hf] at hok; simp at hok
        | ok fetched =>
          rw [hf] at hok
          simp only [Except.ok.injEq] at hok
          have hc2 : (prFetchedLoop repo_key (prSummaryLoop cache repo_key [] [] summary).1
              cache fetched).2 = cache2 := congrArg Prod.snd hok
          rw [← hc2] at hsome
          rcases prFetchedLoop_cache_nonopen repo_key fetched _ _ _ _ hsome with h | h
          · rw [hnone] at h; simp at h
          · exact h

/-- Git backend for the C10 witness (never consulted: the PR commit query
fails, so `_get_pr_commits` returns the empty list). -/
def c10git : GitBackend :=
  { revParse := fun _ => .error "fatal", showCommit := fun _ => .error "",
    blame := fun _ _ => .error "", lsTree := fun _ => .error "",
    logFiles := .error "", showDiff := fun _ => .error "" }

/-- Gh backend for the C10 witness: one merged PR. -/
def c10gh : GhBackend :=
  { prListSummary := .ok [{ number := 5, state := some "MERGED" }],
    prListFull := .ok [{ number := 5, author_login := "alice", createdAt := none,
                         state := some "MERGED", mergedAt := none, mergedBy := none,
                         reviews := [], files := [] }],
    prViewCommits := fun _ => .error (),
    prDiff := fun _ => .error () }

/-- The PR record the C10 witness run produces. -/
def c10pr : PullRequest :=
  { number := 5, author_username := "alice", created_at := "", state := "MERGED",
    merged_at := none, merged_by_username := none, commits := [], reviews := [],
    files := [] }

/-- A PR record with no state field, for the C10 witness. -/
def c10d0 : GhPrData :=
  { number := 0, author_login := "", createdAt := none, state := none,
    mergedAt := none, mergedBy := none, reviews := [], files := [] }

theorem c10_stateless_prs_witness :
    parsePrState none = "OPEN" ∧
    ((buildPullRequest c10d0 [] []).state = "OPEN" ∧
      (buildPullRequest c10d0 [] []).is_open = true) ∧
    c10pr.state ≠ "OPEN" := by
  have h := c10_stateless_prs_parse_open_never_cached c10git c10gh [] "/r" "org/r" []
  exact ⟨h.1, h.2.1 c10d0 [] [] rfl,
    h.2.2 [c10pr] [(("org/r", 5), c10pr)] ("org/r", 5) c10pr
      (by decide) (by decide) (by decide)⟩

/-! ## Claim C9 — case-insensitive handle matching -/

/-- Handle-dict lookup at an already-lowered key (so that
`userLookup m u = handleLookup m (pyLower u)` holds definitionally). -/
def handleLookup (m : List (String × Author)) (k : String) : Option Author :=
  (m.find? (fun e => e.1 == k)).map (fun e => e.2)

theorem handleLookup_step_match (d : List (String × Author)) (s : Author) :
    handleLookup (utaStep d s) (pyLower s.github_username) = some s := by
  unfold utaStep
  set k := pyLower s.github_username with hkdef
  by_cases hany : d.any (fun e => e.1 == k) = true
  · rw [if_pos hany]
    induction d with
    | nil => simp at hany
    | cons e d ih =>
      by_cases he : e.1 = k
      · have heb : (e.1 == k) = true := beq_iff_eq.mpr he
        simp only [List.map_cons, heb, if_true, handleLookup, List.find?,
          beq_self_eq_true, Option.map_some']
      · have heb : (e.1 == k) = false := by simp [he]
        have hany2 : d.any (fun e => e.1 == k) = true := by
          simp only [List.any_cons, heb, Bool.false_or] at hany
          exact hany
        simp only [List.map_cons, heb, Bool.false_eq_true, if_false] at ih ⊢
        unfold handleLookup at ih ⊢
        simp only [List.find?, heb]
        exact ih hany2
  · rw [if_neg hany]
    rw [Bool.not_eq_true] at hany
    have hnone : d.find? (fun e => e.1 == k) = none := by
      rw [List.find?_eq_none]
      intro x hx
      intro hxk
      have : d.any (fun e => e.1 == k) = true := List.any_eq_true.mpr ⟨x, hx, hxk⟩
      rw [this] at hany
      exact absurd hany (by simp)
    unfold handleLookup
    rw [List.find?_append, hnone]
    simp [List.find?]

theorem handleLookup_step_frame (d : List (String × Author)) (t : Author) (k : String)
    (hne : pyLower t.github_username ≠ k) :
    handleLookup (utaStep d t) k = handleLookup d k := by
  unfold utaStep
  set tk := pyLower t.github_username with htkdef
  by_cases hany : d.any (fun e => e.1 == tk) = true
  · rw [if_pos hany]
    unfold handleLookup
    clear hany
    induction d with
    | nil => rfl
    | cons e d ih =>
      by_cases he : e.1 = tk
      · have heb : (e.1 == tk) = true := beq_iff_eq.mpr he
        have hek : (e.1 == k) = false := by
          simp [he]
          exact hne
        have htkk : ((tk : String) == k) = false := by
          simp
          exact hne
        simp only [List.map_cons, heb, if_true, List.find?, htkk, hek]
        exact ih
      · have heb : (e.1 == tk) = false := by simp [he]
        simp only [List.map_cons, heb, Bool.false_eq_true, if_false, List.find?]
        cases hek : (e.1 == k) with
        | true => rfl
        | false => exact ih
  · rw [if_neg hany]
    unfold handleLookup
    rw [List.find?_append]
    have h1 : List.find? (fun e => e.1 == k) [(tk, t)] = none := by
      simp only [List.find?]
      rw [show ((tk, t).1 == k) = false from by simp; exact hne]
    rw [h1]
    cases hc : d.find? (fun e => e.1 == k) <;> simp [Option.or]

theorem handleLookup_fold_frame (post : List Author) (k : String) :
    ∀ d, (∀ t ∈ post, pyLower t.github_username ≠ k) →
      handleLookup (post.foldl utaStep d) k = handleLookup d k := by
  induction post with
  | nil => intro d _; rfl
  | cons t post ih =>
    intro d hall
    simp only [List.foldl_cons]
    rw [ih (utaStep d t) (fun x hx => hall x (List.mem_cons_of_mem t hx))]
    exact handleLookup_step_frame d t k (hall t (List.mem_cons_self t post))

/-- C9: review-request author and reviewer handles are matched to roster
contributors case-insensitively. The handle dict lowercases the roster handle
and every lookup lowercases the queried handle, so (1) two queried handles that
agree after lowercasing resolve identically, and (2) a roster student whose
lowered handle equals the lowered query — and after whom no student claims the
same lowered handle — is the resolved contributor. -/
theorem c9_case_insensitive_handles (students : List Author) (u v : String) :
    (pyLower u = pyLower v →
      userLookup (username_to_author students) u =
        userLookup (username_to_author students) v) ∧
    (∀ s pre post, students = pre ++ s :: post →
      pyLower s.github_username = pyLower u →
      (∀ t ∈ post, pyLower t.github_username ≠ pyLower u) →
      userLookup (username_to_author students) u = some s) := by
  constructor
  · intro h
    unfold userLookup
    rw [h]
  · intro s pre post hsplit hs hpost
    have h1 : userLookup (username_to_author students) u =
        handleLookup (username_to_author students) (pyLower u) := rfl
    rw [h1, hsplit]
    unfold username_to_author
    rw [List.foldl_append, List.foldl_cons]
    rw [handleLookup_fold_frame post (pyLower u) _ hpost]
    rw [← hs]
    exact handleLookup_step_match (List.foldl utaStep [] pre) s

/-- Roster for the C9 witness. -/
def c9alice : Author := { name := "Alice", email := "a@x.com", github_username := "AliceGH" }

theorem c9_case_insensitive_handles_witness :
    userLookup (username_to_author [c9alice]) "ALICEgh" =
      userLookup (username_to_author [c9alice]) "alicegh" ∧
    userLookup (username_to_author [c9alice]) "ALICEgh" = some c9alice := by
  have h := c9_case_insensitive_handles [c9alice] "ALICEgh" "alicegh"
  exact ⟨h.1 (by decide), h.2 c9alice [] [] rfl (by decide) (by decide)⟩

/-! ## Claim C8 — co-author trailer forms -/

theorem coAuthorsLoop_single (reg : Registry) (hsh line : String) (acc : List Author) :
    coAuthorsLoop reg hsh acc [line] = coAuthorStep reg hsh acc line := by
  unfold coAuthorsLoop
  cases h : coAuthorStep reg hsh acc line with
  | error e => rfl
  | ok acc2 => rfl

theorem coAuthorStep_of_parse (reg : Registry) (hsh line name email0 : String)
    (acc : List Author)
    (hp : parseCoAuthorLine (pyStrip line) = some (name, email0))
    (hgate : (name != "" && email0 != "") = true) :
    coAuthorStep reg hsh acc line =
      match Author.get reg name (pyStripAngle email0) "co-author in commit"
          (strTake hsh 8) with
      | .error e => .error e
      | .ok a => .ok (acc ++ [a]) := by
  unfold coAuthorStep
  rw [hp]
  dsimp only
  rw [if_pos hgate]

/-- A one-line commit message, as the C8 statements use it. -/
def mkTrailerCommit (hsh line : String) (a : Author) : Commit :=
  { hash := hsh, author := a, date := "", message_lines := [line] }

/-- C8: the three trailer forms `Co-authored-by: A <a@x.com>`,
`Co-authored-by: A a@x.com` and `co-authored A a@x.com` all resolve to the same
registered contributor whenever (A, a@x.com) is registered; and a trailer
naming an unregistered author raises `UnknownAuthorError` with context
"co-author in commit" and the commit's 8-character hash prefix. -/
theorem c8_coauthor_trailer_forms (reg reg2 : Registry) (ca : Author)
    (h1 h2 h3 h4 : String)
    (hreg : regLookup reg ("A", "a@x.com") = some ca)
    (hmiss : regLookup reg2 ("B", "b@y.com") = none) :
    Commit.get_co_authors reg (mkTrailerCommit h1 "Co-authored-by: A <a@x.com>" ca) =
      .ok [ca] ∧
    Commit.get_co_authors reg (mkTrailerCommit h2 "Co-authored-by: A a@x.com" ca) =
      .ok [ca] ∧
    Commit.get_co_authors reg (mkTrailerCommit h3 "co-authored A a@x.com" ca) =
      .ok [ca] ∧
    Commit.get_co_authors reg2 (mkTrailerCommit h4 "Co-authored-by: B <b@y.com>" ca) =
      .error (.unknownAuthor "B" "b@y.com" "co-author in commit" (strTake h4 8)) := by
  refine ⟨?_, ?_, ?_, ?_⟩
  · show coAuthorsLoop reg h1 [] ["Co-authored-by: A <a@x.com>"] = .ok [ca]
    rw [coAuthorsLoop_single,
      coAuthorStep_of_parse reg h1 "Co-authored-by: A <a@x.com>" "A" "a@x.com" []
        (by decide) (by decide)]
    rw [show pyStripAngle "a@x.com" = "a@x.com" from by decide]
    unfold Author.get
    rw [hreg]
    rfl
  · show coAuthorsLoop reg h2 [] ["Co-authored-by: A a@x.com"] = .ok [ca]
    rw [coAuthorsLoop_single,
      coAuthorStep_of_parse reg h2 "Co-authored-by: A a@x.com" "A" "a@x.com" []
        (by decide) (by decide)]
    rw [show pyStripAngle "a@x.com" = "a@x.com" from by decide]
    unfold Author.get
    rw [hreg]
    rfl
  · show coAuthorsLoop reg h3 [] ["co-authored A a@x.com"] = .ok [ca]
    rw [coAuthorsLoop_single,
      coAuthorStep_of_parse reg h3 "co-authored A a@x.com" "A" "a@x.com" []
        (by decide) (by decide)]
    rw [show pyStripAngle "a@x.com" = "a@x.com" from by decide]
    unfold Author.get
    rw [hreg]
    rfl
  · show coAuthorsLoop reg2 h4 [] ["Co-authored-by: B <b@y.com>"] = _
    rw [coAuthorsLoop_single,
      coAuthorStep_of_parse reg2 h4 "Co-authored-by: B <b@y.com>" "B" "b@y.com" []
        (by decide) (by decide)]
    rw [show pyStripAngle "b@y.com" = "b@y.com" from by decide]
    unfold Author.get
    rw [hmiss]

/-- Registered contributor for the C8 witness. -/
def c8ca : Author := { name := "A", email := "a@x.com", github_username := "agh" }

theorem c8_coauthor_trailer_forms_witness :
    Commit.get_co_authors [(("A", "a@x.com"), c8ca)]
      (mkTrailerCommit "abcdef0123" "Co-authored-by: A <a@x.com>" c8ca) = .ok [c8ca] ∧
    Commit.get_co_authors [(("A", "a@x.com"), c8ca)]
      (mkTrailerCommit "abcdef0123" "Co-authored-by: A a@x.com" c8ca) = .ok [c8ca] ∧
    Commit.get_co_authors [(("A", "a@x.com"), c8ca)]
      (mkTrailerCommit "abcdef0123" "co-authored A a@x.com" c8ca) = .ok [c8ca] ∧
    Commit.get_co_authors []
      (mkTrailerCommit "abcdef0123" "Co-authored-by: B <b@y.com>" c8ca) =
      .error (.unknownAuthor "B" "b@y.com" "co-author in commit"
        (strTake "abcdef0123" 8)) :=
  c8_coauthor_trailer_forms [(("A", "a@x.com"), c8ca)] [] c8ca
    "abcdef0123" "abcdef0123" "abcdef0123" "abcdef0123" (by decide) (by decide)

/-! ## Claim C6 — error recovery during commit attribution -/

/-- The exception classes of `_collect_commit_stats`'s `except` clause around
`repo.get_commit`: `(CommitNotFoundError, UnknownAuthorError)`. -/
def caughtInCommitStats : PyErr → Bool
  | .commitNotFound _ _ => true
  | .unknownAuthor _ _ _ _ => true
  | _ => false

theorem processCommitEntry_skips_caught (g : GitBackend) (reg : Registry)
    (repoPath : String) (ignored : List Author) (incl excl : List String)
    (st : CommitState) (entry : String × List String) (e : PyErr)
    (hres : Commit.get g reg repoPath entry.1 = .error e)
    (hkind : caughtInCommitStats e = true) :
    processCommitEntry g reg repoPath ignored incl excl st entry = .ok st := by
  unfold processCommitEntry
  dsimp only
  split
  · rfl
  · split
    · rfl
    · rw [hres]
      cases e with
      | commitNotFound c p => rfl
      | unknownAuthor a b cc d => rfl
      | fileNotFoundInRepo a b cc => simp [caughtInCommitStats] at hkind
      | calledProcessError a => simp [caughtInCommitStats] at hkind
      | githubApiError a => simp [caughtInCommitStats] at hkind
      | studentsConfigError a => simp [caughtInCommitStats] at hkind
      | indexError => simp [caughtInCommitStats] at hkind
      | valueError => simp [caughtInCommitStats] at hkind

theorem commitEntriesLoop_cons (g : GitBackend) (reg : Registry) (repoPath : String)
    (ignored : List Author) (incl excl : List String) (st : CommitState)
    (entry : String × List String) (rest : List (String × List String)) :
    commitEntriesLoop g reg repoPath ignored incl excl st (entry :: rest) =
      match processCommitEntry g reg repoPath ignored incl excl st entry with
      | .error e => .error e
      | .ok st2 => commitEntriesLoop g reg repoPath ignored incl excl st2 rest := rfl

/-- C6 (amended): a not-found or identity error raised while resolving the
commit itself (`repo.get_commit`, the only call inside the `try`) is recovered
locally by skipping that commit — the full-history loop behaves as if every
entry of that commit were absent. An identity error raised later, while
resolving the commit's co-author trailers, is outside the `try` and propagates
(the counterexample terminates the run that way). -/
theorem c6_resolution_errors_skipped (g : GitBackend) (reg : Registry)
    (repoPath : String) (ignored : List Author) (incl excl : List String)
    (c : String) (e : PyErr)
    (hres : Commit.get g reg repoPath c = .error e)
    (hkind : caughtInCommitStats e = true) :
    ∀ entries st,
      commitEntriesLoop g reg repoPath ignored incl excl st entries =
        commitEntriesLoop g reg repoPath ignored incl excl st
          (entries.filter (fun en => en.1 != c)) := by
  intro entries
  induction entries with
  | nil => intro st; rfl
  | cons entry rest ih =>
    intro st
    by_cases hc : entry.1 = c
    · have hskip : processCommitEntry g reg repoPath ignored incl excl st entry = .ok st :=
        processCommitEntry_skips_caught g reg repoPath ignored incl excl st entry e
          (by rw [hc]; exact hres) hkind
      have hf : (entry :: rest).filter (fun en => en.1 != c) =
          rest.filter (fun en => en.1 != c) := by
        simp [List.filter_cons, hc]
      rw [hf, commitEntriesLoop_cons, hskip]
      exact ih st
    · have hf : (entry :: rest).filter (fun en => en.1 != c) =
          entry :: rest.filter (fun en => en.1 != c) := by
        simp [List.filter_cons, hc]
      rw [hf, commitEntriesLoop_cons, commitEntriesLoop_cons]
      cases hp : processCommitEntry g reg repoPath ignored incl excl st entry with
      | error e2 => rfl
      | ok st2 => exact ih st2

/-- Backend for the C6 witness: no commit resolves. -/
def c6gW : GitBackend :=
  { revParse := fun _ => .error "fatal: bad revision",
    showCommit := fun _ => .error "", blame := fun _ _ => .error "",
    lsTree := fun _ => .error "", logFiles := .ok "",
    showDiff := fun _ => .ok "diff --git a/f.py b/f.py\n+x\n" }

/-- Empty commit-pass state for the C6 witness. -/
def c6stW : CommitState :=
  { alone_commits := [], collab_commits := [], coauthors_cache := [] }

theorem c6_resolution_errors_skipped_witness :
    commitEntriesLoop c6gW [] "/r" [] ["*"] [] c6stW [("deadbeef", ["f.py"])] =
      commitEntriesLoop c6gW [] "/r" [] ["*"] [] c6stW
        ([("deadbeef", ["f.py"])].filter (fun en => en.1 != "deadbeef")) :=
  c6_resolution_errors_skipped c6gW [] "/r" [] ["*"] [] "deadbeef"
    (.commitNotFound "deadbeef" "/r") (by decide) (by decide)
    [("deadbeef", ["f.py"])] c6stW

/-- Roster author for the C6 counterexample. -/
def c6ann : Author := { name := "Ann", email := "a@x.com", github_username := "ann" }

/-- A 40-hex commit hash for the C6 counterexample. -/
def c6hash : String := "aaaaaaaaaaaaaaaaaaaaaaaaaaaaaaaaaaaaaaaa"

/-- Backend for the C6 counterexample: one commit whose message carries a
trailer naming an unregistered co-author. -/
def c6g : GitBackend :=
  { revParse := fun r => if r == c6hash then .ok c6hash else .error "fatal",
    showCommit := fun h =>
      if h == c6hash then
        .ok "Ann\na@x.com\n2024-01-01\nsubject\n\nco-authored B b@y.com\n"
      else .error "",
    blame := fun _ _ => .error "", lsTree := fun _ => .error "",
    logFiles := .ok (c6hash ++ "\nf.py\n"),
    showDiff := fun _ => .ok "diff --git a/f.py b/f.py\n+x\n" }

/-- Roster config for the C6 counterexample. -/
def c6cfg : StudentsConfig :=
  { students := [c6ann], ignore := [], include_patterns := ["*"],
    exclude_patterns := [] }

/-- C6 counterexample: the claim says every identity error arising for a
commit — including one raised while resolving its co-author trailers — is
recovered by skipping the commit. On this run the commit resolves fine but its
trailer names the unregistered (B, b@y.com); `commit.get_co_authors()` sits
outside the `try` block, so the `UnknownAuthorError` escapes
`_collect_commit_stats` and terminates the run. -/
theorem c6_counterexample :
    _collect_commit_stats c6g [(("Ann", "a@x.com"), c6ann)] "/r" c6cfg [] ["*"] [] [] =
      .error (.unknownAuthor "B" "b@y.com" "co-author in commit" (strTake c6hash 8)) := by
  decide

/-! ## Claim C5 — whitespace-only commits contribute nothing -/

/-- A tracked file with every blame line owned by commit `c` deleted. -/
def removeCommitLines (c : String) (tf : TrackedFile) : TrackedFile :=
  { tf with lines := tf.lines.filter (fun p => p.1.hash != c) }

theorem processTrackedLine_skip_ws (reg : Registry) (ignored : List Author)
    (path : String) (st : LineState) (p : Commit × String)
    (hws : pyStrip p.2 = "") :
    processTrackedLine reg ignored path st p = .ok st := by
  unfold processTrackedLine
  dsimp only
  rw [hws]
  rfl

theorem trackedLinesLoop_cons (reg : Registry) (ignored : List Author) (path : String)
    (st : LineState) (p : Commit × String) (rest : List (Commit × String)) :
    trackedLinesLoop reg ignored path st (p :: rest) =
      match processTrackedLine reg ignored path st p with
      | .error er => .error er
      | .ok st2 => trackedLinesLoop reg ignored path st2 rest := rfl

theorem trackedLinesLoop_filter (reg : Registry) (ignored : List Author)
    (path : String) (c : String) (lines : List (Commit × String))
    (hws : ∀ p ∈ lines, p.1.hash = c → pyStrip p.2 = "") :
    ∀ st, trackedLinesLoop reg ignored path st (lines.filter (fun p => p.1.hash != c)) =
      trackedLinesLoop reg ignored path st lines := by
  induction lines with
  | nil => intro st; rfl
  | cons p rest ih =>
    intro st
    have hws2 : ∀ q ∈ rest, q.1.hash = c → pyStrip q.2 = "" :=
      fun q hq => hws q (List.mem_cons_of_mem p hq)
    by_cases hc : p.1.hash = c
    · have hskip := processTrackedLine_skip_ws reg ignored path st p
        (hws p (List.mem_cons_self p rest) hc)
      have hf : (p :: rest).filter (fun q => q.1.hash != c) =
          rest.filter (fun q => q.1.hash != c) := by
        simp [List.filter_cons, hc]
      rw [hf, trackedLinesLoop_cons, hskip]
      exact ih hws2 st
    · have hf : (p :: rest).filter (fun q => q.1.hash != c) =
          p :: rest.filter (fun q => q.1.hash != c) := by
        simp [List.filter_cons, hc]
      rw [hf, trackedLinesLoop_cons, trackedLinesLoop_cons]
      cases hp : processTrackedLine reg ignored path st p with
      | error er => rfl
      | ok st2 => exact ih hws2 st2

/-- Whether any contributor's commit set holds the hash. -/
def commitsDataHas (d : CommitsData) (h : String) : Bool :=
  d.any (fun e => e.2.contains h)

theorem setInsert_contains_ne (s : List String) (h c : String) (hne : h ≠ c) :
    (setInsert s h).contains c = s.contains c := by
  unfold setInsert
  by_cases hs : s.contains h
  · rw [if_pos hs]
  · rw [if_neg hs]
    clear hs
    induction s with
    | nil =>
      have hch : ((c == h) : Bool) = false := beq_eq_false_iff_ne.mpr (fun hh => hne hh.symm)
      simp only [List.nil_append, List.contains_cons, List.contains_nil, hch,
        Bool.or_false]
    | cons x s ih =>
      simp only [List.cons_append, List.contains_cons]
      rw [ih]

theorem commitsAdd_has_ne (d : CommitsData) (a : Author) (h c : String) (hne : h ≠ c) :
    commitsDataHas (commitsAdd d a h) c = commitsDataHas d c := by
  unfold commitsAdd commitsDataHas
  induction d with
  | nil => rfl
  | cons e d ih =>
    simp only [List.map_cons, List.any_cons]
    by_cases he : authEq e.1 a = true
    · simp only [he, if_true, setInsert_contains_ne e.2 h c hne]
      rw [ih]
    · simp only [he, Bool.false_eq_true, if_false]
      rw [ih]

theorem commitsFoldAdd_has_ne (valid : List Author) (h c : String) (hne : h ≠ c) :
    ∀ d, commitsDataHas
        (valid.foldl (fun d2 ca => if commitsHasKey d2 ca then commitsAdd d2 ca h else d2) d) c =
      commitsDataHas d c := by
  induction valid with
  | nil => intro d; rfl
  | cons ca valid ih =>
    intro d
    simp only [List.foldl_cons]
    rw [ih]
    by_cases hk : commitsHasKey d ca = true
    · rw [if_pos hk, commitsAdd_has_ne d ca h c hne]
    · rw [if_neg hk]

theorem processCommitEntry_has_ne (g : GitBackend) (reg : Registry) (repoPath : String)
    (ignored : List Author) (incl excl : List String) (st st2 : CommitState)
    (entry : String × List String) (c : String) (hne : entry.1 ≠ c)
    (hp : processCommitEntry g reg repoPath ignored incl excl st entry = .ok st2) :
    commitsDataHas st2.alone_commits c = commitsDataHas st.alone_commits c ∧
    commitsDataHas st2.collab_commits c = commitsDataHas st.collab_commits c := by
  unfold processCommitEntry at hp
  dsimp only at hp
  split at hp
  · cases hp; exact ⟨rfl, rfl⟩
  · split at hp
    · cases hp; exact ⟨rfl, rfl⟩
    · split at hp
      · cases hp; exact ⟨rfl, rfl⟩
      · cases hp; exact ⟨rfl, rfl⟩
      · exact absurd hp (by simp)
      · rename_i commit heq
        split at hp
        · cases hp; exact ⟨rfl, rfl⟩
        · split at hp
          · exact absurd hp (by simp)
          · split at hp
            · cases hp
              refine ⟨rfl, ?_⟩
              dsimp only
              rw [commitsFoldAdd_has_ne _ _ _ hne]
              by_cases hk : commitsHasKey st.collab_commits commit.author = true
              · rw [if_pos hk, commitsAdd_has_ne _ _ _ _ hne]
              · rw [if_neg hk]
            · cases hp
              refine ⟨?_, rfl⟩
              dsimp only
              by_cases hk : commitsHasKey st.alone_commits commit.author = true
              · rw [if_pos hk, commitsAdd_has_ne _ _ _ _ hne]
              · rw [if_neg hk]

theorem processCommitEntry_skip_nonws (g : GitBackend) (reg : Registry)
    (repoPath : String) (ignored : List Author) (incl excl : List String)
    (st : CommitState) (entry : String × List String)
    (hgate : ((entry.2.filter
        (fun f => matches_include incl f && !should_exclude excl f)).any
      (fun f => (Repo.get_commit_non_whitespace_files g entry.1).contains f)) = false) :
    processCommitEntry g reg repoPath ignored incl excl st entry = .ok st := by
  unfold processCommitEntry
  dsimp only
  split
  · rfl
  · rw [hgate]
    rfl

/-- C5: a commit `c` whose changes to all of its touched, filter-matching paths
are whitespace-only deltas contributes zero entries to attribution.
Line level: the diff-side condition manifests in blame as every `c`-owned blame
line carrying whitespace-only content (blame attributes to `c` exactly the
lines it last introduced, and `c` introduced only whitespace); under that
hypothesis, deleting all of `c`'s blame lines leaves `_collect_line_stats`'s
per-file processing unchanged — no bucket, file-index or cache entry ever
originates from them. Commit level: when no filter-matching touched path of `c`
is in `c`'s non-whitespace file set, the full-history loop never places `c` in
any contributor's alone or collab commit set. -/
theorem c5_whitespace_only_commit_contributes_nothing
    (g : GitBackend) (reg : Registry) (repoPath : String) (ignored : List Author)
    (incl excl : List String) (c : String) :
    (∀ st tf, (∀ p ∈ tf.lines, p.1.hash = c → pyStrip p.2 = "") →
      processTrackedFile reg ignored excl st (removeCommitLines c tf) =
        processTrackedFile reg ignored excl st tf) ∧
    (∀ entries st st2,
      (∀ en ∈ entries, en.1 = c →
        ((en.2.filter (fun f => matches_include incl f && !should_exclude excl f)).any
          (fun f => (Repo.get_commit_non_whitespace_files g en.1).contains f)) = false) →
      commitEntriesLoop g reg repoPath ignored incl excl st entries = .ok st2 →
      commitsDataHas st.alone_commits c = false →
      commitsDataHas st.collab_commits c = false →
      commitsDataHas st2.alone_commits c = false ∧
      commitsDataHas st2.collab_commits c = false) := by
  constructor
  · intro st tf hws
    unfold processTrackedFile removeCommitLines
    dsimp only
    by_cases hex : should_exclude excl tf.path = true
    · rw [if_pos hex, if_pos hex]
    · rw [if_neg hex, if_neg hex]
      exact trackedLinesLoop_filter reg ignored tf.path c tf.lines hws st
  · intro entries
    induction entries with
    | nil =>
      intro st st2 _ hloop ha hc2
      cases hloop
      exact ⟨ha, hc2⟩
    | cons entry rest ih =>
      intro st st2 hws hloop ha hcol
      rw [commitEntriesLoop_cons] at hloop
      by_cases hc : entry.1 = c
      · have hskip := processCommitEntry_skip_nonws g reg repoPath ignored incl excl
          st entry (hws entry (List.mem_cons_self entry rest) hc)
        rw [hskip] at hloop
        exact ih st st2 (fun en hen => hws en (List.mem_cons_of_mem entry hen))
          hloop ha hcol
      · cases hp : processCommitEntry g reg repoPath ignored incl excl st entry with
        | error e => rw [hp] at hloop; simp at hloop
        | ok st1 =>
          rw [hp] at hloop
          obtain ⟨h1, h2⟩ := processCommitEntry_has_ne g reg repoPath ignored incl excl
            st st1 entry c hc hp
          exact ih st1 st2 (fun en hen => hws en (List.mem_cons_of_mem entry hen)) hloop
            (by rw [h1]; exact ha) (by rw [h2]; exact hcol)

/-- Data for the C5 witness. -/
def c5hash : String := "bbbbbbbbbbbbbbbbbbbbbbbbbbbbbbbbbbbbbbbb"

def c5ann : Author := { name := "Ann", email := "a@x.com", github_username := "ann" }

def c5commitC : Commit :=
  { hash := c5hash, author := c5ann, date := "", message_lines := [] }

def c5otherHash : String := "cccccccccccccccccccccccccccccccccccccccc"

def c5commitD : Commit :=
  { hash := c5otherHash, author := c5ann, date := "", message_lines := [] }

/-- A tracked file whose `c5hash`-owned line is whitespace-only. -/
def c5tf : TrackedFile :=
  { path := "f.py", lines := [(c5commitC, "   "), (c5commitD, "x = 1")] }

def c5reg : Registry := [(("Ann", "a@x.com"), c5ann)]

def c5st0 : LineState :=
  { alone_lines := [(c5ann, [])], collab_lines := [(c5ann, [])],
    file_commits := [], coauthors_cache := [] }

/-- Backend for the C5 witness: the diff of `c5hash` adds only blank content. -/
def c5gW : GitBackend :=
  { revParse := fun _ => .error "", showCommit := fun _ => .error "",
    blame := fun _ _ => .error "", lsTree := fun _ => .error "",
    logFiles := .ok "", showDiff := fun _ => .ok "diff --git a/f.py b/f.py\n+  \n" }

def c5cst : CommitState :=
  { alone_commits := [(c5ann, [])], collab_commits := [(c5ann, [])],
    coauthors_cache := [] }

theorem c5_whitespace_only_commit_witness :
    processTrackedFile c5reg [] [] c5st0 (removeCommitLines c5hash c5tf) =
      processTrackedFile c5reg [] [] c5st0 c5tf ∧
    (commitsDataHas c5cst.alone_commits c5hash = false ∧
      commitsDataHas c5cst.collab_commits c5hash = false) := by
  have h := c5_whitespace_only_commit_contributes_nothing c5gW c5reg "/r" [] ["*"] []
    c5hash
  refine ⟨h.1 c5st0 c5tf (by decide), ?_⟩
  exact h.2 [(c5hash, ["f.py"])] c5cst c5cst (by decide) (by decide)
    (by decide) (by decide)

/-! ## Claim C2 — review counting -/

/-- Counter projection used to state results: the named counter of the entry
keyed like `a` (0 when absent). -/
def fieldOf (proj : GitHubStats → Nat) (d : GitHubStatsData) (a : Author) : Nat :=
  ((d.find? (fun e => authEq e.1 a)).map (fun e => proj e.2)).getD 0

def approvalsOf (d : GitHubStatsData) (a : Author) : Nat :=
  fieldOf (fun gs => gs.approvals_given) d a

def changeReqsOf (d : GitHubStatsData) (a : Author) : Nat :=
  fieldOf (fun gs => gs.change_requests_given) d a

def statsHasKey (d : GitHubStatsData) (a : Author) : Bool :=
  d.any (fun e => authEq e.1 a)

/-- Whether a review resolves through the handle dict to an author with `a`'s
key and carries the given disposition. -/
def reviewCountsFor (userMap : List (String × Author)) (a : Author) (stv : String)
    (rv : PullRequestReview) : Bool :=
  rv.state == stv &&
    (match userLookup userMap rv.reviewer_username with
     | some x => authEq x a
     | none => false)

theorem authEq_congr_right {r a : Author} (hra : authEq r a = true) (x : Author) :
    authEq x r = authEq x a := by
  unfold authEq at hra ⊢
  simp only [Bool.and_eq_true, beq_iff_eq] at hra
  rw [hra.1, hra.2]

theorem authEq_not_both {x r a : Author} (hxr : authEq x r = true)
    (hxa : authEq x a = true) : authEq r a = true := by
  unfold authEq at hxr hxa ⊢
  simp only [Bool.and_eq_true, beq_iff_eq] at hxr hxa ⊢
  exact ⟨hxr.1 ▸ hxa.1, hxr.2 ▸ hxa.2⟩

theorem authMem_congr {r a : Author} (hra : authEq r a = true) (xs : List Author) :
    authMem xs r = authMem xs a := by
  unfold authMem
  induction xs with
  | nil => rfl
  | cons x xs ih => simp only [List.any_cons, ih, authEq_congr_right hra x]

theorem authMem_append_one (xs : List Author) (r a : Author) :
    authMem (xs ++ [r]) a = (authMem xs a || authEq r a) := by
  unfold authMem
  simp [List.any_append]

theorem statsHasKey_modify (d : GitHubStatsData) (r a : Author)
    (f : GitHubStats → GitHubStats) :
    statsHasKey (statsModify d r f) a = statsHasKey d a := by
  unfold statsHasKey statsModify
  induction d with
  | nil => rfl
  | cons e d ih =>
    simp only [List.map_cons, List.any_cons]
    by_cases her : authEq e.1 r = true
    · simp only [her, if_true]
      rw [ih]
    · simp only [her, Bool.false_eq_true, if_false]
      rw [ih]

theorem fieldOf_modify_preserve (proj : GitHubStats → Nat)
    (f : GitHubStats → GitHubStats) (hf : ∀ gs, proj (f gs) = proj gs)
    (d : GitHubStatsData) (r a : Author) :
    fieldOf proj (statsModify d r f) a = fieldOf proj d a := by
  unfold fieldOf statsModify
  induction d with
  | nil => rfl
  | cons e d ih =>
    by_cases her : authEq e.1 r = true
    · cases hea : authEq e.1 a with
      | true =>
        simp only [List.map_cons, her, if_true, List.find?, hea, Option.map_some',
          Option.getD_some, hf]
      | false =>
        simp only [List.map_cons, her, if_true, List.find?, hea] at ih ⊢
        exact ih
    · cases hea : authEq e.1 a with
      | true =>
        simp only [List.map_cons, her, Bool.false_eq_true, if_false, List.find?, hea]
      | false =>
        simp only [List.map_cons, her, Bool.false_eq_true, if_false, List.find?, hea]
          at ih ⊢
        exact ih

theorem fieldOf_modify_inc (proj : GitHubStats → Nat)
    (f : GitHubStats → GitHubStats) (hf : ∀ gs, proj (f gs) = proj gs + 1)
    (d : GitHubStatsData) (r a : Author) (hra : authEq r a = true)
    (hkey : statsHasKey d a = true) :
    fieldOf proj (statsModify d r f) a = fieldOf proj d a + 1 := by
  unfold fieldOf statsModify
  unfold statsHasKey at hkey
  induction d with
  | nil => simp at hkey
  | cons e d ih =>
    cases hea : authEq e.1 a with
    | true =>
      have her : authEq e.1 r = true := by
        rw [authEq_congr_right hra e.1]
        exact hea
      simp only [List.map_cons, her, if_true, List.find?, hea, Option.map_some',
        Option.getD_some, hf]
    | false =>
      have hkey2 : d.any (fun e => authEq e.1 a) = true := by
        simp only [List.any_cons, hea, Bool.false_or] at hkey
        exact hkey
      by_cases her : authEq e.1 r = true
      · have : authEq e.1 a = true := by
          rw [← authEq_congr_right hra e.1]
          exact her
        rw [this] at hea
        cases hea
      · simp only [List.map_cons, her, Bool.false_eq_true, if_false, List.find?, hea]
        exact ih hkey2

theorem fieldOf_modify_other (proj : GitHubStats → Nat)
    (f : GitHubStats → GitHubStats) (d : GitHubStatsData) (r a : Author)
    (hra : authEq r a = false) :
    fieldOf proj (statsModify d r f) a = fieldOf proj d a := by
  unfold fieldOf statsModify
  induction d with
  | nil => rfl
  | cons e d ih =>
    by_cases her : authEq e.1 r = true
    · have hea : authEq e.1 a = false := by
        cases hea : authEq e.1 a with
        | false => rfl
        | true => rw [authEq_not_both her hea] at hra; cases hra
      have hea2 : authEq ((e.1, f e.2) : Author × GitHubStats).1 a = false := hea
      simp only [List.map_cons, her, if_true, List.find?, hea2, hea] at ih ⊢
      exact ih
    · cases hea : authEq e.1 a with
      | true =>
        simp only [List.map_cons, her, Bool.false_eq_true, if_false, List.find?, hea]
      | false =>
        simp only [List.map_cons, her, Bool.false_eq_true, if_false, List.find?, hea]
          at ih ⊢
        exact ih

theorem reviewFold_counts (userMap : List (String × Author)) (a : Author)
    (reviews : List PullRequestReview) :
    ∀ stats seenA seenC,
      statsHasKey stats a = true →
      approvalsOf (reviews.foldl (reviewStep userMap) (stats, seenA, seenC)).1 a =
        approvalsOf stats a +
          (if !authMem seenA a && reviews.any (reviewCountsFor userMap a "APPROVED")
           then 1 else 0) ∧
      changeReqsOf (reviews.foldl (reviewStep userMap) (stats, seenA, seenC)).1 a =
        changeReqsOf stats a +
          (if !authMem seenC a &&
              reviews.any (reviewCountsFor userMap a "CHANGES_REQUESTED")
           then 1 else 0) := by
  induction reviews with
  | nil =>
    intro stats seenA seenC hkey
    constructor <;> simp
  | cons rv rest ih =>
    intro stats seenA seenC hkey
    simp only [List.foldl_cons, List.any_cons]
    cases hu : userLookup userMap rv.reviewer_username with
    | none =>
      have hstep : reviewStep userMap (stats, seenA, seenC) rv = (stats, seenA, seenC) := by
        unfold reviewStep
        rw [hu]
      have hcfA : reviewCountsFor userMap a "APPROVED" rv = false := by
        unfold reviewCountsFor
        rw [hu]
        simp
      have hcfC : reviewCountsFor userMap a "CHANGES_REQUESTED" rv = false := by
        unfold reviewCountsFor
        rw [hu]
        simp
      rw [hstep]
      simp only [hcfA, hcfC, Bool.false_or]
      exact ih stats seenA seenC hkey
    | some reviewer =>
      have hcfA : reviewCountsFor userMap a "APPROVED" rv =
          ((rv.state == "APPROVED") && authEq reviewer a) := by
        unfold reviewCountsFor
        rw [hu]
      have hcfC : reviewCountsFor userMap a "CHANGES_REQUESTED" rv =
          ((rv.state == "CHANGES_REQUESTED") && authEq reviewer a) := by
        unfold reviewCountsFor
        rw [hu]
      by_cases hst : (rv.state == "APPROVED") = true
      · have hstC : (rv.state == "CHANGES_REQUESTED") = false := by
          rw [beq_iff_eq] at hst
          rw [hst]
          decide
        simp only [hcfA, hcfC, hst, hstC, Bool.true_and, Bool.false_and, Bool.false_or]
        by_cases hseen : authMem seenA reviewer = true
        · have hstep : reviewStep userMap (stats, seenA, seenC) rv =
              (stats, seenA, seenC) := by
            unfold reviewStep
            rw [hu]
            dsimp only
            rw [if_pos hst, if_pos hseen]
          rw [hstep]
          obtain ⟨ihA, ihC⟩ := ih stats seenA seenC hkey
          refine ⟨?_, ihC⟩
          rw [ihA]
          by_cases hra : authEq reviewer a = true
          · have hma : authMem seenA a = true := by
              rw [← authMem_congr hra seenA]
              exact hseen
            simp [hma]
          · simp only [Bool.not_eq_true] at hra
            simp [hra]
        · have hstep : reviewStep userMap (stats, seenA, seenC) rv =
              (statsModify stats reviewer
                 (fun gs => { gs with approvals_given := gs.approvals_given + 1 }),
               seenA ++ [reviewer], seenC) := by
            unfold reviewStep
            rw [hu]
            dsimp only
            rw [if_pos hst, if_neg hseen]
          rw [hstep]
          have hkey2 : statsHasKey (statsModify stats reviewer
              (fun gs => { gs with approvals_given := gs.approvals_given + 1 })) a =
              true := by
            rw [statsHasKey_modify]
            exact hkey
          obtain ⟨ihA, ihC⟩ := ih _ (seenA ++ [reviewer]) seenC hkey2
          constructor
          · rw [ihA]
            unfold approvalsOf
            by_cases hra : authEq reviewer a = true
            · rw [fieldOf_modify_inc (fun gs => gs.approvals_given)
                (fun gs => { gs with approvals_given := gs.approvals_given + 1 })
                (fun gs => rfl) stats reviewer a hra hkey]
              have hmem2 : authMem (seenA ++ [reviewer]) a = true := by
                rw [authMem_append_one, hra]
                simp
              have hma : authMem seenA a = false := by
                rw [← authMem_congr hra seenA]
                simp only [Bool.not_eq_true] at hseen
                exact hseen
              simp [hmem2, hma, hra]
            · simp only [Bool.not_eq_true] at hra
              rw [fieldOf_modify_other _ _ stats reviewer a hra]
              simp [authMem_append_one, hra]
          · rw [ihC]
            unfold changeReqsOf
            rw [fieldOf_modify_preserve (fun gs => gs.change_requests_given)
              (fun gs => { gs with approvals_given := gs.approvals_given + 1 })
              (fun gs => rfl) stats reviewer a]
      · by_cases hstC : (rv.state == "CHANGES_REQUESTED") = true
        · have hstF : (rv.state == "APPROVED") = false := by simpa using hst
          simp only [hcfA, hcfC, hstC, hstF, Bool.false_and, Bool.true_and,
            Bool.false_or]
          by_cases hseen : authMem seenC reviewer = true
          · have hstep : reviewStep userMap (stats, seenA, seenC) rv =
                (stats, seenA, seenC) := by
              unfold reviewStep
              rw [hu]
              dsimp only
              rw [if_neg hst, if_pos hstC, if_pos hseen]
            rw [hstep]
            obtain ⟨ihA, ihC⟩ := ih stats seenA seenC hkey
            refine ⟨ihA, ?_⟩
            rw [ihC]
            by_cases hra : authEq reviewer a = true
            · have hma : authMem seenC a = true := by
                rw [← authMem_congr hra seenC]
                exact hseen
              simp [hma]
            · simp only [Bool.not_eq_true] at hra
              simp [hra]
          · have hstep : reviewStep userMap (stats, seenA, seenC) rv =
                (statsModify stats reviewer
                   (fun gs =>
                     { gs with change_requests_given := gs.change_requests_given + 1 }),
                 seenA, seenC ++ [reviewer]) := by
              unfold reviewStep
              rw [hu]
              dsimp only
              rw [if_neg hst, if_pos hstC, if_neg hseen]
            rw [hstep]
            have hkey2 : statsHasKey (statsModify stats reviewer
                (fun gs =>
                  { gs with change_requests_given := gs.change_requests_given + 1 })) a =
                true := by
              rw [statsHasKey_modify]
              exact hkey
            obtain ⟨ihA, ihC⟩ := ih _ seenA (seenC ++ [reviewer]) hkey2
            constructor
            · rw [ihA]
              unfold approvalsOf
              rw [fieldOf_modify_preserve (fun gs => gs.approvals_given)
                (fun gs =>
                  { gs with change_requests_given := gs.change_requests_given + 1 })
                (fun gs => rfl) stats reviewer a]
            · rw [ihC]
              unfold changeReqsOf
              by_cases hra : authEq reviewer a = true
              · rw [fieldOf_modify_inc (fun gs => gs.change_requests_given)
                  (fun gs =>
                    { gs with change_requests_given := gs.change_requests_given + 1 })
                  (fun gs => rfl) stats reviewer a hra hkey]
                have hmem2 : authMem (seenC ++ [reviewer]) a = true := by
                  rw [authMem_append_one, hra]
                  simp
                have hma : authMem seenC a = false := by
                  rw [← authMem_congr hra seenC]
                  simp only [Bool.not_eq_true] at hseen
                  exact hseen
                simp [hmem2, hma, hra]
              · simp only [Bool.not_eq_true] at hra
                rw [fieldOf_modify_other _ _ stats reviewer a hra]
                simp [authMem_append_one, hra]
        · have hstep : reviewStep userMap (stats, seenA, seenC) rv =
              (stats, seenA, seenC) := by
            unfold reviewStep
            rw [hu]
            dsimp only
            rw [if_neg hst, if_neg hstC]
          have hstF : (rv.state == "APPROVED") = false := by simpa using hst
          have hstCF : (rv.state == "CHANGES_REQUESTED") = false := by simpa using hstC
          rw [hstep]
          simp only [hcfA, hcfC, hstF, hstCF, Bool.false_and, Bool.false_or]
          exact ih stats seenA seenC hkey

theorem processReviews_counts (userMap : List (String × Author)) (a : Author)
    (rvs : List PullRequestReview) (stats : GitHubStatsData)
    (hkey : statsHasKey stats a = true) :
    approvalsOf (processReviews userMap stats rvs) a =
      approvalsOf stats a +
        (if rvs.any (reviewCountsFor userMap a "APPROVED") then 1 else 0) ∧
    changeReqsOf (processReviews userMap stats rvs) a =
      changeReqsOf stats a +
        (if rvs.any (reviewCountsFor userMap a "CHANGES_REQUESTED") then 1 else 0) := by
  have h := reviewFold_counts userMap a rvs stats [] [] hkey
  unfold processReviews
  simpa [authMem] using h

theorem processReviews_modify_counts (userMap : List (String × Author)) (a : Author)
    (rvs : List PullRequestReview) (stats : GitHubStatsData) (author : Author)
    (f : GitHubStats → GitHubStats)
    (hfA : ∀ gs, (f gs).approvals_given = gs.approvals_given)
    (hfC : ∀ gs, (f gs).change_requests_given = gs.change_requests_given)
    (hkey : statsHasKey stats a = true) :
    approvalsOf (processReviews userMap (statsModify stats author f) rvs) a =
      approvalsOf stats a +
        (if rvs.any (reviewCountsFor userMap a "APPROVED") then 1 else 0) ∧
    changeReqsOf (processReviews userMap (statsModify stats author f) rvs) a =
      changeReqsOf stats a +
        (if rvs.any (reviewCountsFor userMap a "CHANGES_REQUESTED") then 1 else 0) := by
  have hk1 : statsHasKey (statsModify stats author f) a = true := by
    rw [statsHasKey_modify]
    exact hkey
  obtain ⟨hA, hC⟩ := processReviews_counts userMap a rvs (statsModify stats author f) hk1
  constructor
  · rw [hA]
    unfold approvalsOf
    rw [fieldOf_modify_preserve (fun gs => gs.approvals_given) f hfA stats author a]
  · rw [hC]
    unfold changeReqsOf
    rw [fieldOf_modify_preserve (fun gs => gs.change_requests_given) f hfC stats author a]

/-- Roster student for the C2 counterexample and witness. -/
def c2aliceA : Author :=
  { name := "Alice", email := "a@x.com", github_username := "alice", student_id := "1" }

/-- Config for the C2 counterexample. -/
def c2cfg : StudentsConfig :=
  { students := [c2aliceA], ignore := [], include_patterns := ["*"],
    exclude_patterns := [] }

/-- A bot-authored merged PR carrying an APPROVED review by the roster student
"alice" on a matching file with non-whitespace changes. -/
def c2botPR : PullRequest :=
  { number := 7, author_username := "app/dependabot", created_at := "2024-01-01",
    state := "MERGED", merged_at := some "2024-01-02",
    merged_by_username := some "alice", commits := [],
    reviews := [{ reviewer_username := "alice", state := "APPROVED",
                  submitted_at := "2024-01-01" }],
    files := [{ path := "f.py", additions := 3, deletions := 1 }] }

/-- C2 counterexample: the claim promises review counting "for every review
request, qualifying or not (regardless of bot author, ...)". On a bot-authored
PR whose APPROVED review resolves to the roster student Alice, the full
`_collect_github_stats` run leaves Alice's approval counter at 0: the `continue`
for authors with the "app/" prefix skips the review-counting code as well. -/
theorem c2_counterexample :
    pyStartswith c2botPR.author_username "app/" = true ∧
    c2botPR.reviews.any
      (reviewCountsFor (username_to_author c2cfg.students) c2aliceA "APPROVED") = true ∧
    approvalsOf (_collect_github_stats c2cfg ["*"] [] [c2botPR]) c2aliceA = 0 := by
  decide

/-- C2 (amended): the three `continue` gates of `_collect_github_stats` (bot
author prefixed "app/", no matching changed file with non-whitespace content,
closed without merge) skip the PR entirely, reviews included. For a PR passing
all three gates, each roster student's approval counter rises by exactly one
when some review on the PR resolves to them with state APPROVED — independent
of how many such reviews there are — and likewise for the change-request
counter with state CHANGES_REQUESTED. -/
theorem c2_review_counting :
    (∀ (userMap : List (String × Author)) (incl excl : List String)
       (stats : GitHubStatsData) (pr : PullRequest),
       (pyStartswith pr.author_username "app/" = true ∨
        pr_has_matching_files incl excl pr = false ∨
        (pr.is_merged = false ∧ pr.is_open = false)) →
       processPR userMap incl excl stats pr = stats) ∧
    (∀ (userMap : List (String × Author)) (incl excl : List String)
       (stats : GitHubStatsData) (pr : PullRequest) (a : Author),
       statsHasKey stats a = true →
       pyStartswith pr.author_username "app/" = false →
       pr_has_matching_files incl excl pr = true →
       (pr.is_merged || pr.is_open) = true →
       approvalsOf (processPR userMap incl excl stats pr) a =
         approvalsOf stats a +
           (if pr.reviews.any (reviewCountsFor userMap a "APPROVED") then 1 else 0) ∧
       changeReqsOf (processPR userMap incl excl stats pr) a =
         changeReqsOf stats a +
           (if pr.reviews.any (reviewCountsFor userMap a "CHANGES_REQUESTED")
            then 1 else 0)) := by
  constructor
  · intro userMap incl excl stats pr h
    rcases h with hb | hf | ⟨h1, h2⟩
    · simp [processPR, hb]
    · simp [processPR, hf]
    · simp [processPR, h1, h2]
  · intro userMap incl excl stats pr a hkey hbot hfiles hopen
    have hgate : (!pr.is_merged && !pr.is_open) = false := by
      cases h1 : pr.is_merged <;> cases h2 : pr.is_open <;> simp_all
    cases hul : userLookup userMap pr.author_username with
    | none =>
      have hred : processPR userMap incl excl stats pr =
          processReviews userMap stats pr.reviews := by
        simp [processPR, hbot, hfiles, hgate, hul]
      rw [hred]
      exact processReviews_counts userMap a pr.reviews stats hkey
    | some author =>
      cases hcol : pr_is_collab pr with
      | true =>
        cases hm : pr.is_merged with
        | true =>
          have hred : processPR userMap incl excl stats pr =
              processReviews userMap
                (statsModify stats author
                  (fun gs => { gs with prs_collab_merged := gs.prs_collab_merged + 1 }))
                pr.reviews := by
            simp [processPR, hbot, hfiles, hgate, hul, hcol, hm]
          rw [hred]
          exact processReviews_modify_counts userMap a pr.reviews stats author
            (fun gs => { gs with prs_collab_merged := gs.prs_collab_merged + 1 })
            (fun gs => rfl) (fun gs => rfl) hkey
        | false =>
          have ho : pr.is_open = true := by
            rw [hm] at hopen
            simpa using hopen
          have hred : processPR userMap incl excl stats pr =
              processReviews userMap
                (statsModify stats author
                  (fun gs => { gs with prs_collab_open := gs.prs_collab_open + 1 }))
                pr.reviews := by
            simp [processPR, hbot, hfiles, hul, hcol, hm, ho]
          rw [hred]
          exact processReviews_modify_counts userMap a pr.reviews stats author
            (fun gs => { gs with prs_collab_open := gs.prs_collab_open + 1 })
            (fun gs => rfl) (fun gs => rfl) hkey
      | false =>
        cases hm : pr.is_merged with
        | true =>
          have hred : processPR userMap incl excl stats pr =
              processReviews userMap
                (statsModify stats author
                  (fun gs => { gs with prs_alone_merged := gs.prs_alone_merged + 1 }))
                pr.reviews := by
            simp [processPR, hbot, hfiles, hgate, hul, hcol, hm]
          rw [hred]
          exact processReviews_modify_counts userMap a pr.reviews stats author
            (fun gs => { gs with prs_alone_merged := gs.prs_alone_merged + 1 })
            (fun gs => rfl) (fun gs => rfl) hkey
        | false =>
          have ho : pr.is_open = true := by
            rw [hm] at hopen
            simpa using hopen
          have hred : processPR userMap incl excl stats pr =
              processReviews userMap
                (statsModify stats author
                  (fun gs => { gs with prs_alone_open := gs.prs_alone_open + 1 }))
                pr.reviews := by
            simp [processPR, hbot, hfiles, hul, hcol, hm, ho]
          rw [hred]
          exact processReviews_modify_counts userMap a pr.reviews stats author
            (fun gs => { gs with prs_alone_open := gs.prs_alone_open + 1 })
            (fun gs => rfl) (fun gs => rfl) hkey

/-- A gate-passing PR for the C2 witness: authored by the roster student, with
a duplicate pair of APPROVED reviews that must count once. -/
def c2okPR : PullRequest :=
  { number := 8, author_username := "alice", created_at := "2024-01-01",
    state := "MERGED", merged_at := some "2024-01-02",
    merged_by_username := some "alice", commits := [],
    reviews := [{ reviewer_username := "alice", state := "APPROVED",
                  submitted_at := "2024-01-01" },
                { reviewer_username := "alice", state := "APPROVED",
                  submitted_at := "2024-01-02" }],
    files := [{ path := "f.py", additions := 3, deletions := 1 }] }

theorem c2_review_counting_witness :
    processPR (username_to_author [c2aliceA]) ["*"] [] (statsInit [c2aliceA])
      c2botPR = statsInit [c2aliceA] ∧
    approvalsOf (processPR (username_to_author [c2aliceA]) ["*"] []
        (statsInit [c2aliceA]) c2okPR) c2aliceA =
      approvalsOf (statsInit [c2aliceA]) c2aliceA +
        (if c2okPR.reviews.any
              (reviewCountsFor (username_to_author [c2aliceA]) c2aliceA "APPROVED")
         then 1 else 0) := by
  constructor
  · exact c2_review_counting.1 (username_to_author [c2aliceA]) ["*"] []
      (statsInit [c2aliceA]) c2botPR (Or.inl (by decide))
  · exact (c2_review_counting.2 (username_to_author [c2aliceA]) ["*"] []
      (statsInit [c2aliceA]) c2okPR c2aliceA (by decide) (by decide) (by decide)
      (by decide)).1

end Datool
